import Mathlib

/-!
Verification of the procedural composition engine (pattern generation,
key/scale model, genetic rhythm evolver, humanization, track orchestration).

Modelling conventions, used uniformly below:
* Python `int` is modelled as `Int` (or `Nat` where the source value is
  provably a count/index); Python floor division `//` is `Int.fdiv` and
  Python `%` on integers is `Int.emod` for positive moduli and `Int.fmod`
  in general (both agree with Python's semantics).
* Python `float` arithmetic is modelled as exact rational arithmetic on `ℚ`;
  `math.sqrt` is modelled by the exact rational square root `ratSqrt`
  below, which agrees with the real square root at `0`, `1` and all perfect
  squares — the only points at which any theorem below evaluates it.
* The implicit global RNG of the `random` module is modelled as an explicit
  stream state `PyRand` threaded through every embedded function, holding a
  queue of `random.random()` draws and a queue of selector values used by
  `random.choice` / `random.randint` / `random.sample`.
* `int(x)` (float truncation toward zero) is `pyInt`.
-/

/-- Truncation of a rational toward zero, the behaviour of Python `int(x)`. -/
def pyInt (q : ℚ) : Int := q.num.tdiv q.den

/-- Exact rational square root: model of `math.sqrt`.  Exact at `0`, `1` and
perfect squares, the only arguments the development evaluates it at. -/
def ratSqrt (q : ℚ) : ℚ := (Int.sqrt q.num : ℚ) / (Nat.sqrt q.den : ℚ)

/-- State of the (implicitly global) Python RNG, modelled as two explicit
streams: pending `random.random()` draws, and pending selector values used
by `choice`/`randint`/`sample`/`uniform`.  Reading past the end yields `0`. -/
structure PyRand where
  floats : List ℚ
  picks : List Nat
deriving DecidableEq

/-- Draw the next `random.random()` value. -/
def PyRand.nextFloat (s : PyRand) : ℚ × PyRand :=
  (s.floats.headD 0, ⟨s.floats.tail, s.picks⟩)

/-- Draw the next selector value. -/
def PyRand.nextPick (s : PyRand) : Nat × PyRand :=
  (s.picks.headD 0, ⟨s.floats, s.picks.tail⟩)

/-- Model of `random.choice(l)`: a selector value indexes into `l`.
Python raises on an empty list; every call site below passes a provably
non-empty list, where the two semantics agree. -/
def pyChoice [Inhabited α] (l : List α) (s : PyRand) : α × PyRand :=
  let (k, s') := s.nextPick
  (l.getD (k % l.length) default, s')

/-- Model of `random.randint(a, b)` (inclusive bounds): a selector value
chooses an offset in `[0, b-a]`.  Python raises when `b < a`; every call
site below satisfies `a ≤ b`, where the two semantics agree. -/
def pyRandint (a b : Int) (s : PyRand) : Int × PyRand :=
  let (k, s') := s.nextPick
  (a + (k % (b - a + 1).toNat : Nat), s')

/-- Model of `random.uniform(a, b)`. -/
def pyUniform (a b : ℚ) (s : PyRand) : ℚ × PyRand :=
  let (f, s') := s.nextFloat
  (a + (b - a) * f, s')

/-- Model of `random.sample(l, k)`: draw `k` distinct elements, each step
selecting one of the remaining elements and removing it. -/
def pySample [Inhabited α] : List α → Nat → PyRand → List α × PyRand
  | _, 0, s => ([], s)
  | l, k + 1, s =>
    let (i, s1) := s.nextPick
    let idx := i % l.length
    let (rest, s2) := pySample (l.eraseIdx idx) k s1
    (l.getD idx default :: rest, s2)

/-- Python `range(a, b)` as a list of integers. -/
def pyRange (a b : Int) : List Int :=
  (List.range (b - a).toNat).map (fun k : Nat => a + (k : Int))

/-- Python `range(a, b, 2)` (used for odd-index scans). -/
def pyRangeStep2 (a b : Int) : List Int :=
  (pyRange a b).filter (fun x => (x - a) % 2 = 0)

/-- Auxiliary contiguous-sublist test over symbol lists. -/
def listInfixCheck [DecidableEq α] : List α → List α → Bool
  | sub, [] => sub.isEmpty
  | sub, a :: t => sub.isPrefixOf (a :: t) || listInfixCheck sub t

/-- Python substring test `sub in s`. -/
def pyIn (sub s : String) : Bool :=
  listInfixCheck sub.data s.data

/-- Python list slice `l[a:b]` for non-negative bounds. -/
def pySlice (l : List α) (a b : Nat) : List α :=
  (l.take b).drop a

/-- Python's non-overlapping `str.count(sub)`, scanning left to right, on
lists of symbols (the pattern strings counted below consist of the one-digit
symbols `0` and `1`, so the list of symbols and the joined string agree). -/
def pyCount [DecidableEq α] : Nat → List α → List α → Nat
  | 0, _, _ => 0
  | fuel + 1, s, sub =>
    match s with
    | [] => 0
    | _ :: t =>
      if sub.isPrefixOf s then 1 + pyCount fuel (s.drop sub.length) sub
      else pyCount fuel t sub

/-- Entry point for `pyCount`; fuel `s.length + 1` suffices because every
step of the scan consumes at least one symbol of a non-empty `s` (the
substrings counted below have length `2` or `4`). -/
def pyCountStr [DecidableEq α] (s sub : List α) : Nat :=
  pyCount (s.length + 1) s sub

/-- Stable insertion (descending by key), auxiliary to `sortByDesc`. -/
def insertDesc (key : α → ℚ) (x : α) : List α → List α
  | [] => [x]
  | y :: ys => if key y < key x then x :: y :: ys else y :: insertDesc key x ys

/-- Python's stable `list.sort(key=…, reverse=True)`: a stable sort in
descending key order. -/
def sortByDesc (key : α → ℚ) (l : List α) : List α :=
  l.foldl (fun acc x => insertDesc key x acc) []

/-- Stable insertion (ascending), auxiliary to `sortAscNat`. -/
def insertAsc (x : Nat) : List Nat → List Nat
  | [] => [x]
  | y :: ys => if x < y then x :: y :: ys else y :: insertAsc x ys

/-- Python `sorted` on a list of naturals. -/
def sortAscNat (l : List Nat) : List Nat :=
  l.foldl (fun acc x => insertAsc x acc) []

/-- Python `min(l, key=…)`: the first element attaining the minimal key.
Python raises on an empty list; every call site below passes a provably
non-empty list, where the two semantics agree. -/
def pyMinByKey (key : Int → Nat) : List Int → Int
  | [] => 0
  | x :: xs => xs.foldl (fun best y => if key y < key best then y else best) x

/-- Python `list.index(x)`: index of the first occurrence. -/
def pyIndexOf (l : List Int) (x : Int) : Nat :=
  l.findIdx (fun y => y = x)

/-- One note event, the value of the Python dict
`{'position': …, 'pitch': …, 'length': …, 'velocity': …}`. -/
structure Note where
  position : Int
  pitch : Int
  length : Int
  velocity : Int
deriving DecidableEq

namespace EuclideanRhythm

/-!  `EuclideanRhythm.generate` (creative_pattern_engine.py, lines 48–98). -/

/-- The count/remainder `while True` loop of Bjorklund's algorithm.  State
`(d, r)` is Python's `(divisor, remainders[level])`; one iteration appends
`d // r` to `counts` and `d % r` to `remainders`, then continues with
`(r, d % r)` until the freshly appended remainder is `≤ 1`; finally the
current divisor (the previous remainder) is appended to `counts`.  The fuel
argument only bounds the iteration count; `generate` passes fuel that
provably never runs out (`pulses.toNat + 1` iterations suffice because the
remainder strictly decreases and a non-positive remainder stops at once). -/
def bjorklundLoop : Nat → Int → Int → List Int × List Int
  | 0, d, r => ([d], [r])
  | fuel + 1, d, r =>
    let c := d.fdiv r
    let r2 := d.fmod r
    if r2 ≤ 1 then ([c, r], [r, r2])
    else
      let p := bjorklundLoop fuel r r2
      (c :: p.1, r :: p.2)

/-- Generalisation of the `build` recursion with arbitrary base blocks `A`
(Python level `-2`, the block `[1]`) and `B` (level `-1`, the block `[0]`);
index `i + 2` is Python's `build(level = i)`. -/
def gbuild (A B : List Nat) (cs rs : List Int) : Nat → List Nat
  | 0 => A
  | 1 => B
  | i + 2 =>
    (List.replicate (cs.getD i 0).toNat (gbuild A B cs rs (i + 1))).flatten
      ++ (if rs.getD i 0 ≠ 0 then gbuild A B cs rs i else [])

/-- The `build` recursion of the source: `build(-1)` appends `0`,
`build(-2)` appends `1`, `build(level)` appends `counts[level]` copies of
`build(level-1)` followed by `build(level-2)` when `remainders[level] ≠ 0`. -/
def build (cs rs : List Int) (i : Nat) : List Nat :=
  gbuild [1] [0] cs rs i

/-- Python slice index normalisation: `l[i:]` starts at `len + i` (clamped
at `0`) for negative `i` and at `i` otherwise; likewise for `l[:i]`. -/
def pyIndex (len : Nat) (i : Int) : Nat :=
  if i < 0 then ((len : Int) + i).toNat else i.toNat

/-- `EuclideanRhythm.generate(pulses, steps, rotation)`: clamps
`pulses` to `steps`, returns the all-zero vector for `pulses == 0`, and
otherwise runs Bjorklund's bucket recursion, rotates by `rotation`
(Python slicing semantics) and truncates with `pattern[:steps]`. -/
def generate (pulses steps : Int) (rotation : Int) : List Nat :=
  let pulses := if pulses > steps then steps else pulses
  if pulses = 0 then List.replicate steps.toNat 0
  else
    let pr := bjorklundLoop (pulses.toNat + 1) (steps - pulses) pulses
    let pattern := build pr.1 pr.2 (pr.1.length + 1)
    let pattern :=
      if rotation ≠ 0 then
        pattern.drop (pyIndex pattern.length rotation)
          ++ pattern.take (pyIndex pattern.length rotation)
      else pattern
    pattern.take (pyIndex pattern.length steps)

end EuclideanRhythm

namespace Scale

/-!  `Scale` (musical_key_engine.py, lines 12–98). -/

/-- The scale interval table `Scale.SCALES` (insertion order preserved). -/
def SCALES : List (String × List Int) :=
  [("major", [0, 2, 4, 5, 7, 9, 11]),
   ("minor", [0, 2, 3, 5, 7, 8, 10]),
   ("harmonic_minor", [0, 2, 3, 5, 7, 8, 11]),
   ("melodic_minor", [0, 2, 3, 5, 7, 9, 11]),
   ("dorian", [0, 2, 3, 5, 7, 9, 10]),
   ("phrygian", [0, 1, 3, 5, 7, 8, 10]),
   ("lydian", [0, 2, 4, 6, 7, 9, 11]),
   ("mixolydian", [0, 2, 4, 5, 7, 9, 10]),
   ("aeolian", [0, 2, 3, 5, 7, 8, 10]),
   ("locrian", [0, 1, 3, 5, 6, 8, 10]),
   ("pentatonic_major", [0, 2, 4, 7, 9]),
   ("pentatonic_minor", [0, 3, 5, 7, 10]),
   ("blues", [0, 3, 5, 6, 7, 10]),
   ("chromatic", [0, 1, 2, 3, 4, 5, 6, 7, 8, 9, 10, 11]),
   ("whole_tone", [0, 2, 4, 6, 8, 10]),
   ("diminished", [0, 2, 3, 5, 6, 8, 9, 11]),
   ("arabian", [0, 2, 4, 5, 6, 8, 10]),
   ("japanese", [0, 1, 5, 7, 8]),
   ("hungarian_minor", [0, 2, 3, 6, 7, 8, 11])]

/-- The root-note table `Scale.ROOTS` (insertion order preserved; Python
dicts iterate in insertion order, which `get_diatonic_chords` relies on). -/
def ROOTS : List (String × Int) :=
  [("C", 48), ("C#", 49), ("Db", 49), ("D", 50), ("D#", 51), ("Eb", 51),
   ("E", 52), ("F", 53), ("F#", 54), ("Gb", 54), ("G", 55), ("G#", 56),
   ("Ab", 56), ("A", 57), ("A#", 58), ("Bb", 58), ("B", 59)]

/-- `Scale.SCALES.get(scale_type, Scale.SCALES['major'])`. -/
def scaleGet (s : String) : List Int :=
  (SCALES.lookup s).getD ((SCALES.lookup "major").getD [])

/-- `Scale.ROOTS.get(root, 48)`.  Call sites that index `Scale.ROOTS[...]`
directly (which would raise `KeyError` for an unknown name) only ever pass
names from the table, where indexing and `.get(..., 48)` agree. -/
def rootGet (r : String) : Int :=
  (ROOTS.lookup r).getD 48

/-- The octave/interval double loop of `get_scale_notes`, with the root
pitch and interval list already resolved. -/
def buildScaleNotes (root_midi : Int) (intervals : List Int) (lo hi : Int) :
    List Int :=
  ((pyRange lo (hi + 1)).map (fun octave =>
    intervals.filterMap (fun i =>
      if 0 ≤ root_midi + (octave - 3) * 12 + i
          ∧ root_midi + (octave - 3) * 12 + i ≤ 127
      then some (root_midi + (octave - 3) * 12 + i) else none))).flatten

/-- `Scale.get_scale_notes(root, scale_type, octave_range)`. -/
def get_scale_notes (root scale_type : String) (lo hi : Int) : List Int :=
  buildScaleNotes (rootGet root) (scaleGet scale_type) lo hi

/-- `Scale.quantize_to_scale(note, root, scale_type)`: the scale note
nearest to `note`, Python `min` returning the first (lowest, since the
candidate list is ascending) minimiser. -/
def quantize_to_scale (note : Int) (root scale_type : String) : Int :=
  pyMinByKey (fun x => (x - note).natAbs) (get_scale_notes root scale_type 0 10)

/-- The chord interval table of `get_chord_tones`. -/
def CHORD_INTERVALS : List (String × List Int) :=
  [("major", [0, 4, 7]), ("minor", [0, 3, 7]), ("dim", [0, 3, 6]),
   ("aug", [0, 4, 8]), ("maj7", [0, 4, 7, 11]), ("min7", [0, 3, 7, 10]),
   ("dom7", [0, 4, 7, 10]), ("maj9", [0, 4, 7, 11, 14]),
   ("min9", [0, 3, 7, 10, 14]), ("sus2", [0, 2, 7]), ("sus4", [0, 5, 7]),
   ("add9", [0, 4, 7, 14]), ("6", [0, 4, 7, 9]), ("min6", [0, 3, 7, 9])]

/-- `Scale.get_chord_tones(root, chord_type, octave)`. -/
def get_chord_tones (root chord_type : String) (octave : Int) : List Int :=
  let root_note := rootGet root + (octave - 3) * 12
  let intervals := (CHORD_INTERVALS.lookup chord_type).getD [0, 4, 7]
  intervals.filterMap (fun i =>
    if root_note + i ≤ 127 then some (root_note + i) else none)

end Scale

/-!  `KeySignature` (musical_key_engine.py, lines 101–170). -/

/-- One diatonic chord, the Python dict `{'root', 'type', 'degree'}`. -/
structure Chord where
  root : String
  type : String
  degree : Nat
deriving DecidableEq

/-- `KeySignature.__init__`: stores root, scale and the scale notes over
the default octave range `(3, 5)`. -/
structure KeySignature where
  root : String
  scale : String
  scale_notes : List Int
deriving DecidableEq

/-- The `KeySignature(root, scale)` constructor. -/
def KeySignature.make (root scale : String) : KeySignature :=
  ⟨root, scale, Scale.get_scale_notes root scale 3 5⟩

/-- `KeySignature.get_diatonic_chords`: quality/interval pattern chosen by
scale family, each chord root resolved to the first name in `Scale.ROOTS`
with a matching pitch class, degrees numbered in construction order. -/
def KeySignature.get_diatonic_chords (k : KeySignature) : List Chord :=
  let chord_pattern : List (String × Int) :=
    if k.scale = "major" then
      [("major", 0), ("minor", 2), ("minor", 4), ("major", 5), ("major", 7),
       ("minor", 9), ("dim", 11)]
    else if k.scale = "minor" ∨ k.scale = "aeolian" then
      [("minor", 0), ("dim", 2), ("major", 3), ("minor", 5), ("minor", 7),
       ("major", 8), ("major", 10)]
    else
      [("major", 0), ("minor", 2), ("minor", 4), ("major", 5), ("major", 7),
       ("minor", 9), ("dim", 11)]
  let root_midi := Scale.rootGet k.root
  chord_pattern.foldl (fun chords ci =>
    match Scale.ROOTS.find? (fun nm => nm.2 % 12 = (root_midi + ci.2) % 12) with
    | some nm => chords ++ [⟨nm.1, ci.1, chords.length + 1⟩]
    | none => chords) []

/-- The progression index table of `get_chord_progression`. -/
def PROGRESSION_PATTERNS : List (String × List Nat) :=
  [("pop", [0, 5, 3, 4]), ("rock", [0, 3, 4, 3]),
   ("blues", [0, 0, 0, 0, 3, 3, 0, 0, 4, 3, 0, 4]), ("jazz", [1, 4, 0, 0]),
   ("sad", [5, 3, 0, 4]), ("epic", [0, 6, 3, 4]), ("minimal", [0, 0, 0, 0]),
   ("tension", [0, 1, 4, 0]), ("spanish", [5, 4, 3, 5]),
   ("gospel", [0, 2, 3, 0])]

/-- `KeySignature.get_chord_progression(progression_type)`: resolves the
selected index pattern (default `pop`) against the diatonic chords,
skipping out-of-range indices. -/
def KeySignature.get_chord_progression (k : KeySignature)
    (progression_type : String) : List Chord :=
  let diatonic := k.get_diatonic_chords
  let pattern := (PROGRESSION_PATTERNS.lookup progression_type).getD
    [0, 5, 3, 4]
  (pattern.filter (fun i => i < diatonic.length)).map
    (fun i => diatonic.getD i ⟨"", "", 0⟩)

namespace HumanizeEngine

/-!  `HumanizeEngine` (musical_key_engine.py, lines 365–421). -/

/-- The per-note loop of `humanize_timing`, with
`max_shift = int(48 * amount)` precomputed.  Positions that are exact
multiples of 48 (first note of a bar) get
`randint(-max_shift // 4, max_shift // 4)`, all others
`randint(-max_shift, max_shift)`; the new position is clamped at 0. -/
def humanizeTimingGo (max_shift : Int) : List Note → PyRand → List Note × PyRand
  | [], s => ([], s)
  | n :: ns, s =>
    let draw :=
      if n.position % 48 = 0 then
        pyRandint ((-max_shift).fdiv 4) (max_shift.fdiv 4) s
      else
        pyRandint (-max_shift) max_shift s
    let rest := humanizeTimingGo max_shift ns draw.2
    ({ n with position := max 0 (n.position + draw.1) } :: rest.1, rest.2)

/-- `HumanizeEngine.humanize_timing(notes, amount)`. -/
def humanize_timing (notes : List Note) (amount : ℚ) (s : PyRand) :
    List Note × PyRand :=
  humanizeTimingGo (pyInt (48 * amount)) notes s

/-- The per-note loop of `humanize_velocity`.  The source recomputes
`variation = int(127 * amount)` in every iteration; the value is the same
each time, so it is precomputed here. -/
def humanizeVelocityGo (variation : Int) : List Note → PyRand → List Note × PyRand
  | [], s => ([], s)
  | n :: ns, s =>
    let draw := pyRandint (-variation) variation s
    let rest := humanizeVelocityGo variation ns draw.2
    ({ n with velocity := max 1 (min 127 (n.velocity + draw.1)) } :: rest.1, rest.2)

/-- `HumanizeEngine.humanize_velocity(notes, amount)`. -/
def humanize_velocity (notes : List Note) (amount : ℚ) (s : PyRand) :
    List Note × PyRand :=
  humanizeVelocityGo (pyInt (127 * amount)) notes s

/-- `HumanizeEngine.add_swing(notes, amount)`: every other sixteenth-note
slot is shifted forward by `int(3 * amount)` ticks (no randomness). -/
def add_swing (notes : List Note) (amount : ℚ) : List Note :=
  let swing_ticks := pyInt (3 * amount)
  notes.map (fun n =>
    if (n.position.fdiv 3) % 2 = 1 then
      { n with position := n.position + swing_ticks }
    else n)

end HumanizeEngine

/-!  `PatternDNA` and `GeneticRhythm` (creative_pattern_engine.py,
lines 35–42 and 255–404).  The numpy branch (`HAS_NUMPY`) is not modelled:
the pure-Python fallback branch of `fitness` is embedded, which computes
the same standard deviation. -/

/-- The `PatternDNA` dataclass.  Rhythm genes are the 0/1 pattern values;
all float fields are modelled as exact rationals. -/
structure PatternDNA where
  rhythm_genes : List ℚ
  velocity_genes : List ℚ
  timing_genes : List ℚ
  mutation_rate : ℚ := 3/10
  crossover_points : Nat := 2
deriving DecidableEq

instance : Inhabited PatternDNA := ⟨⟨[], [], [], 3/10, 2⟩⟩

/-- Python `range(a, b)` over naturals. -/
def pyRangeNat (a b : Nat) : List Nat :=
  (List.range (b - a)).map (fun k => a + k)

namespace GeneticRhythm

/-- `GeneticRhythm.fitness(dna)`: groove-consistency (inverse standard
deviation of onset spacings), density closeness to 0.4, syncopation
(odd-index onset fraction), minus a penalty of 1 for each repeating
sub-pattern of size 2 and 4 (Python's non-overlapping `str.count` over the
joined digit string), clamped below at 0.  `math.sqrt` is `ratSqrt`. -/
def fitness (dna : PatternDNA) : ℚ :=
  let pattern := dna.rhythm_genes
  let hits := (List.range pattern.length).filter (fun i => pattern.getD i 0 = 1)
  let score1 : ℚ :=
    if hits.length > 1 then
      let spacings := (List.range (hits.length - 1)).map
        (fun i => ((hits.getD (i + 1) 0 : Nat) : ℚ) - ((hits.getD i 0 : Nat) : ℚ))
      let mean : ℚ :=
        if spacings ≠ [] then spacings.sum / (spacings.length : ℚ) else 0
      let variance : ℚ :=
        if spacings ≠ [] then
          (spacings.map (fun x => (x - mean) ^ 2)).sum / (spacings.length : ℚ)
        else 0
      1 / (1 + ratSqrt variance) * 2
    else 0
  let density := pattern.sum / (pattern.length : ℚ)
  let density_score := 1 - |density - 2/5|
  let syncopation := ((List.range pattern.length).filter
    (fun i => i % 2 = 1 ∧ pattern.getD i 0 = 1)).length
  let score2 := score1 + density_score + (syncopation : ℚ) / (pattern.length : ℚ) * 2
  let penalty : ℚ :=
    (if 2 < pattern.length ∧ (pyCountStr pattern (pattern.take 2) : Int)
        > (pattern.length : Int) / 2 - 1 then 1 else 0)
    + (if 4 < pattern.length ∧ (pyCountStr pattern (pattern.take 4) : Int)
        > (pattern.length : Int) / 4 - 1 then 1 else 0)
  max 0 (score2 - penalty)

/-- `GeneticRhythm.crossover(parent1, parent2)`: multi-point crossover at
`sorted(random.sample(range(1, length), min(crossover_points, length-1)))`
cut points, alternating the source parent (Python compares the running
parent to `parent1` by dataclass value equality, reproduced here with
decidable equality on `PatternDNA`). -/
def crossover (parent1 parent2 : PatternDNA) (s : PyRand) : PatternDNA × PyRand :=
  let length := parent1.rhythm_genes.length
  let sampled := pySample (pyRangeNat 1 length)
    (min parent1.crossover_points (length - 1)) s
  let points := sortAscNat sampled.1
  let fin := (points ++ [length]).foldl
    (fun (st : (List ℚ × List ℚ × List ℚ) × PatternDNA × Nat) point =>
      if st.2.1 = parent1 then
        ((st.1.1 ++ pySlice parent1.rhythm_genes st.2.2 point,
          st.1.2.1 ++ pySlice parent1.velocity_genes st.2.2 point,
          st.1.2.2 ++ pySlice parent1.timing_genes st.2.2 point),
         parent2, point)
      else
        ((st.1.1 ++ pySlice parent2.rhythm_genes st.2.2 point,
          st.1.2.1 ++ pySlice parent2.velocity_genes st.2.2 point,
          st.1.2.2 ++ pySlice parent2.timing_genes st.2.2 point),
         parent1, point))
    (([], [], []), parent1, 0)
  ({ rhythm_genes := fin.1.1, velocity_genes := fin.1.2.1,
     timing_genes := fin.1.2.2,
     mutation_rate := (parent1.mutation_rate + parent2.mutation_rate) / 2 },
   sampled.2)

/-- One index step of `GeneticRhythm.mutate`: with probability
`mutation_rate` pick one of flip / adjacent shift / velocity re-roll /
timing re-roll (a shift at index 0 does nothing, as in the source). -/
def mutateStep (rate : ℚ) (st : (List ℚ × List ℚ × List ℚ) × PyRand) (i : Nat) :
    (List ℚ × List ℚ × List ℚ) × PyRand :=
  let draw := st.2.nextFloat
  if draw.1 < rate then
    let mt := pyChoice ["flip", "shift", "velocity", "timing"] draw.2
    if mt.1 = "flip" then
      ((st.1.1.set i (1 - st.1.1.getD i 0), st.1.2.1, st.1.2.2), mt.2)
    else if mt.1 = "shift" ∧ i > 0 then
      (((st.1.1.set i (st.1.1.getD (i - 1) 0)).set (i - 1) (st.1.1.getD i 0),
        st.1.2.1, st.1.2.2), mt.2)
    else if mt.1 = "velocity" then
      let u := pyUniform (3/10) 1 mt.2
      ((st.1.1, st.1.2.1.set i u.1, st.1.2.2), u.2)
    else if mt.1 = "timing" then
      let u := pyUniform (-(1/5)) (1/5) mt.2
      ((st.1.1, st.1.2.1, st.1.2.2.set i u.1), u.2)
    else ((st.1.1, st.1.2.1, st.1.2.2), mt.2)
  else ((st.1.1, st.1.2.1, st.1.2.2), draw.2)

/-- `GeneticRhythm.mutate(dna)`: per-gene mutation over a copy; the
freshly constructed `PatternDNA` gets the default `crossover_points = 2`. -/
def mutate (dna : PatternDNA) (s : PyRand) : PatternDNA × PyRand :=
  let fin := (List.range dna.rhythm_genes.length).foldl
    (mutateStep dna.mutation_rate)
    ((dna.rhythm_genes, dna.velocity_genes, dna.timing_genes), s)
  ({ rhythm_genes := fin.1.1, velocity_genes := fin.1.2.1,
     timing_genes := fin.1.2.2, mutation_rate := dna.mutation_rate }, fin.2)

end GeneticRhythm

/-- The `GeneticRhythm` object state (population size, population,
generation counter). -/
structure GeneticRhythm where
  population_size : Nat := 20
  population : List PatternDNA := []
  generation : Nat := 0
deriving DecidableEq

namespace GeneticRhythm

/-- One individual of `initialize_population`: a random density in
`[0.1, 0.8]`, then rhythm, velocity and timing genes drawn in order. -/
def initOne (length : Nat) (s : PyRand) : PatternDNA × PyRand :=
  let dd := pyUniform (1/10) (8/10) s
  let rg := (List.range length).foldl (fun st _ =>
    let f := st.2.nextFloat
    (st.1 ++ [if f.1 < dd.1 then (1 : ℚ) else 0], f.2)) (([] : List ℚ), dd.2)
  let vg := (List.range length).foldl (fun st _ =>
    let u := pyUniform (1/2) 1 st.2
    (st.1 ++ [u.1], u.2)) (([] : List ℚ), rg.2)
  let tg := (List.range length).foldl (fun st _ =>
    let u := pyUniform (-(1/10)) (1/10) st.2
    (st.1 ++ [u.1], u.2)) (([] : List ℚ), vg.2)
  ({ rhythm_genes := rg.1, velocity_genes := vg.1, timing_genes := tg.1 }, tg.2)

/-- `GeneticRhythm.initialize_population(length)`. -/
def initialize_population (g : GeneticRhythm) (length : Nat) (s : PyRand) :
    GeneticRhythm × PyRand :=
  let fin := (List.range g.population_size).foldl (fun st _ =>
    let one := initOne length st.2
    (st.1 ++ [one.1], one.2)) (([] : List PatternDNA), s)
  ({ g with population := fin.1 }, fin.2)

/-- The `while len(new_population) < population_size` refill loop of
`evolve`: choose two survivors, cross them over, mutate the child, append.
Each iteration appends exactly one child, so `population_size` steps of
fuel are never exhausted. -/
def refill (pop_size : Nat) (survivors : List PatternDNA) :
    Nat → List PatternDNA → PyRand → List PatternDNA × PyRand
  | 0, acc, s => (acc, s)
  | fuel + 1, acc, s =>
    if acc.length < pop_size then
      let p1 := pyChoice survivors s
      let p2 := pyChoice survivors p1.2
      let child := crossover p1.1 p2.1 p2.2
      let child2 := mutate child.1 child.2
      refill pop_size survivors fuel (acc ++ [child2.1]) child2.2
    else (acc, s)

/-- `GeneticRhythm.evolve()`: auto-seed an empty population, score and
stably sort by fitness descending, keep the top half as survivors, refill
by crossover plus mutation, and return the top entry of the pre-evolution
ranking (`fitness_scores[0][0]`). -/
def evolve (g : GeneticRhythm) (s : PyRand) :
    PatternDNA × GeneticRhythm × PyRand :=
  let gs := if g.population = [] then initialize_population g 16 s else (g, s)
  let fitness_scores := gs.1.population.map (fun d => (d, fitness d))
  let sorted := sortByDesc (fun p => p.2) fitness_scores
  let survivors := (sorted.take (gs.1.population_size / 2)).map Prod.fst
  let new_pop := refill gs.1.population_size survivors gs.1.population_size
    survivors gs.2
  ((sorted.getD 0 default).1,
   { gs.1 with population := new_pop.1, generation := gs.1.generation + 1 },
   new_pop.2)

end GeneticRhythm

/-!  `CreativePatternEngine` (creative_pattern_engine.py, lines 407–706).
The ten algorithm generators dispatched on lines 431–450 are abstracted as
an oracle parameter `genPattern`; the retry loop, cache handling and
algorithm bookkeeping are embedded exactly.  `hashlib.md5(...).hexdigest()`
is abstracted as a function parameter `md5`. -/

/-- The `PatternAlgorithm` enum, in declaration order. -/
inductive PatternAlgorithm where
  | euclidean
  | fibonacci
  | golden_ratio
  | chaos
  | cellular_automaton
  | markov_chain
  | fractal
  | probability_field
  | wave_interference
  | genetic
deriving DecidableEq, Inhabited

/-- `list(PatternAlgorithm)`. -/
def PatternAlgorithm.all : List PatternAlgorithm :=
  [.euclidean, .fibonacci, .golden_ratio, .chaos, .cellular_automaton,
   .markov_chain, .fractal, .probability_field, .wave_interference, .genetic]

/-- The engine state used by `generate_unique_pattern`: the process-wide
fingerprint cache (a Python `set`, modelled as a duplicate-free list) and
the last used algorithm. -/
structure CPEngine where
  pattern_cache : List String
  last_algorithm : Option PatternAlgorithm
deriving DecidableEq

namespace CreativePatternEngine

/-- `CreativePatternEngine._transform_pattern(pattern)`: one of six
transformations chosen at random.  Pattern entries are the 0/1 onset
values, so Python's `1 - x`, `|` and `&` agree with the `Nat` versions. -/
def transformPattern (s : PyRand) (p : List Nat) : List Nat × PyRand :=
  let transformations : List (List Nat → List Nat) :=
    [fun q => q.reverse,
     fun q => q.map (fun x => 1 - x),
     fun q => q.drop (q.length / 2) ++ q.take (q.length / 2),
     fun q => (List.range q.length).map
       (fun i => if i % 2 = 0 then q.getD i 0 else 1 - q.getD i 0),
     fun q => (List.range q.length).map
       (fun i => (q.getD i 0) ||| (q.getD ((i + 1) % q.length) 0)),
     fun q => (List.range q.length).map
       (fun i => (q.getD i 0) &&& (q.getD ((i + 1) % q.length) 0))]
  let pick := s.nextPick
  ((transformations.getD (pick.1 % transformations.length) id) p, pick.2)

/-- `CreativePatternEngine._calculate_syncopation(pattern)`. -/
def calculateSyncopation (pattern : List Nat) : ℚ :=
  if pattern = [] then 0
  else
    let off_beat := ((List.range pattern.length).filter
      (fun i => i % 2 = 1 ∧ pattern.getD i 0 = 1)).length
    let on_beat := ((List.range pattern.length).filter
      (fun i => i % 2 = 0 ∧ pattern.getD i 0 = 1)).length
    if off_beat + on_beat = 0 then 0
    else (off_beat : ℚ) / (((off_beat + on_beat : Nat)) : ℚ)

/-- Result of the uniqueness retry loop: final pattern, its fingerprint,
the number of transformation attempts performed, and the RNG state. -/
structure UniqueResult where
  pattern : List Nat
  hash : String
  attempts : Nat
  rng : PyRand
deriving DecidableEq

/-- The `while pattern_hash in self.pattern_cache and attempts < 10` loop
of `generate_unique_pattern`: transform, re-fingerprint, count the
attempt. -/
def uniqueLoop (md5 : List Nat → String) (cache : List String)
    (attempts : Nat) (p : List Nat) (h : String) (s : PyRand) : UniqueResult :=
  if h ∈ cache ∧ attempts < 10 then
    let t := transformPattern s p
    uniqueLoop md5 cache (attempts + 1) t.1 (md5 t.1) t.2
  else ⟨p, h, attempts, s⟩
termination_by 10 - attempts

/-- The algorithm selection of `generate_unique_pattern`: remove the last
used algorithm when `force_different` and one exists, then `choice`. -/
def chooseAlgorithm (eng : CPEngine) (force_different : Bool) (s : PyRand) :
    PatternAlgorithm × PyRand :=
  let algorithms :=
    if force_different then
      match eng.last_algorithm with
      | some la => PatternAlgorithm.all.erase la
      | none => PatternAlgorithm.all
    else PatternAlgorithm.all
  pyChoice algorithms s

/-- The returned pattern record (the Python result dict). -/
structure PatternResult where
  pattern : List Nat
  algorithm : PatternAlgorithm
  hash : String
  density : ℚ
  syncopation : ℚ
deriving DecidableEq

/-- `CreativePatternEngine.generate_unique_pattern(length, force_different)`
with the per-algorithm generator dispatch abstracted as `genPattern` and
the md5 fingerprint abstracted as `md5`: choose an algorithm, generate,
retry through `uniqueLoop` on cache collisions, register the final
fingerprint and return the result record plus updated engine state. -/
def generate_unique_pattern
    (genPattern : PatternAlgorithm → Nat → PyRand → List Nat × PyRand)
    (md5 : List Nat → String) (eng : CPEngine) (length : Nat)
    (force_different : Bool) (s : PyRand) :
    PatternResult × CPEngine × PyRand :=
  let alg := chooseAlgorithm eng force_different s
  let gen := genPattern alg.1 length alg.2
  let res := uniqueLoop md5 eng.pattern_cache 0 gen.1 (md5 gen.1) gen.2
  (⟨res.pattern, alg.1, res.hash.take 8,
    res.pattern.sum / ((res.pattern.length : Nat) : ℚ),
    calculateSyncopation res.pattern⟩,
   ⟨List.insert res.hash eng.pattern_cache, some alg.1⟩,
   res.rng)

end CreativePatternEngine

/-!  `MelodicGenerator` (musical_key_engine.py, lines 173–362). -/

/-- A chord given by root name and quality, the dicts
`{'root': …, 'type': …}` passed to the melodic generator. -/
structure ChordRT where
  root : String
  type : String
deriving DecidableEq

instance : Inhabited ChordRT := ⟨⟨"C", "major"⟩⟩

namespace MelodicGenerator

/-- `MelodicGenerator._step_motion(current, available, max_steps)`. -/
def step_motion (current : Int) (available : List Int) (max_steps : Int)
    (s : PyRand) : Int × PyRand :=
  if current ∉ available then pyChoice available s
  else
    let idx := pyIndexOf available current
    let st := pyRandint (-max_steps) max_steps s
    let new_idx := max 0 (min ((available.length : Int) - 1) ((idx : Int) + st.1))
    (available.getD new_idx.toNat 0, st.2)

/-- `MelodicGenerator._leap_motion(current, available)`. -/
def leap_motion (current : Int) (available : List Int) (s : PyRand) :
    Int × PyRand :=
  if current ∉ available then pyChoice available s
  else
    let idx := pyIndexOf available current
    let lp := pyChoice ([-5, -4, -3, 3, 4, 5] : List Int) s
    let new_idx := max 0 (min ((available.length : Int) - 1) ((idx : Int) + lp.1))
    (available.getD new_idx.toNat 0, lp.2)

/-- One beat of `generate_melody`'s inner loop: possible rest, melodic
movement (strong beats prefer strong tones, weak beats prefer stepwise
motion), note-length variation, velocity variation, then append. -/
def melodyBeat (available strong_tones : List Int) (tick_length : Int)
    (st : List Note × Int × Int × PyRand) (beat : Nat) :
    List Note × Int × Int × PyRand :=
  let melody := st.1
  let position := st.2.1
  let current := st.2.2.1
  let f1 := st.2.2.2.nextFloat
  if f1.1 < 3/20 then (melody, position + tick_length, current, f1.2)
  else
    let cur :=
      if beat % 4 = 0 then
        let f2 := f1.2.nextFloat
        if f2.1 < 7/10 then pyChoice strong_tones f2.2
        else step_motion current available 2 f2.2
      else
        let f2 := f1.2.nextFloat
        if f2.1 < 3/5 then step_motion current available 1 f2.2
        else
          let f3 := f2.2.nextFloat
          if f3.1 < 17/20 then step_motion current available 2 f3.2
          else leap_motion current available f3.2
    let len :=
      let g1 := cur.2.nextFloat
      if g1.1 < 7/10 then (tick_length, g1.2)
      else
        let g2 := g1.2.nextFloat
        if g2.1 < 4/5 then (tick_length * 2, g2.2)
        else (tick_length.fdiv 2, g2.2)
    let vel :=
      if beat % 4 = 0 then
        let r := pyRandint (-5) 10 len.2
        (80 + r.1, r.2)
      else
        let r := pyRandint (-10) 10 len.2
        (60 + r.1, r.2)
    (melody ++ [⟨position, cur.1, min len.1 (48 - position % 48), vel.1⟩],
     position + tick_length, cur.1, vel.2)

/-- `MelodicGenerator.generate_melody(bars, notes_per_bar, octave_range)`.
The final cadence (`if melody and bar == bars - 1`) fires exactly when the
melody is non-empty, because the loop variable `bar` equals `bars - 1`
after any loop that emitted a note. -/
def generate_melody (key : KeySignature) (bars notes_per_bar : Nat)
    (olo ohi : Int) (s : PyRand) : List Note × PyRand :=
  let tick_length : Int := ((48 / notes_per_bar : Nat) : Int)
  let available := key.scale_notes.filter (fun n => olo * 12 ≤ n ∧ n ≤ ohi * 12)
  let strong_tones := (([0, 2, 4] : List Nat).filter
    (fun i => i < available.length)).map (fun i => available.getD i 0)
  let c0 := pyChoice strong_tones s
  let fin := (List.range bars).foldl (fun st _ =>
    (List.range notes_per_bar).foldl
      (melodyBeat available strong_tones tick_length) st)
    (([] : List Note), (0 : Int), c0.1, c0.2)
  let melody :=
    match fin.1.getLast? with
    | some last => fin.1.dropLast
        ++ [{ last with pitch := strong_tones.getD 0 0, velocity := 90 }]
    | none => fin.1
  (melody, fin.2.2.2)

/-- `MelodicGenerator.generate_bass_line(chord_progression, bars)`: one
randomly chosen rhythmic cell per bar (walking / root–fifth / driving
eighths / syncopated), each pitch quantized into the key's scale. -/
def generate_bass_line (key : KeySignature) (prog : List ChordRT)
    (bars : Nat) (s : PyRand) : List Note × PyRand :=
  (List.range bars).foldl (fun st bar =>
    let chord := prog.getD (bar % prog.length) default
    let chord_root := Scale.rootGet chord.root + 24
    let bar_position : Int := (bar : Int) * 48
    let patterns : List (List (Int × Int × Int)) :=
      [[(0, chord_root, 12), (12, chord_root + 5, 12),
        (24, chord_root + 7, 12), (36, chord_root + 5, 12)],
       [(0, chord_root, 24), (24, chord_root + 7, 24)],
       (List.range 8).map (fun i : Nat => ((i : Int) * 6, chord_root, (6 : Int))),
       [(0, chord_root, 18), (18, chord_root, 6), (30, chord_root + 7, 18)]]
    let pk := pyChoice patterns st.2
    pk.1.foldl (fun st2 entry =>
      if entry.1 < 48 then
        let pitch := Scale.quantize_to_scale entry.2.1 key.root key.scale
        let r := pyRandint (-10) 10 st2.2
        (st2.1 ++ [⟨bar_position + entry.1, pitch, entry.2.2, 90 + r.1⟩], r.2)
      else st2) (st.1, pk.2)) (([] : List Note), s)

/-- `MelodicGenerator.generate_arpeggio(chord_progression, bars, pattern)`.
The `updown` shape `chord_tones + chord_tones[-2:0:-1]` is the tones
followed by their interior in reverse. -/
def generate_arpeggio (key : KeySignature) (prog : List ChordRT)
    (bars : Nat) (pattern : String) (s : PyRand) : List Note × PyRand :=
  let tick_length : Int := 3
  (List.range bars).foldl (fun st bar =>
    let chord := prog.getD (bar % prog.length) default
    let chord_tones := Scale.get_chord_tones chord.root chord.type 5
    let bar_position : Int := (bar : Int) * 48
    let seqs :=
      if pattern = "up" then (chord_tones, st.2)
      else if pattern = "down" then (chord_tones.reverse, st.2)
      else if pattern = "updown" then
        (chord_tones ++ (chord_tones.tail.dropLast).reverse, st.2)
      else if pattern = "random" then
        (List.range 16).foldl (fun a _ =>
          let c := pyChoice chord_tones a.2
          (a.1 ++ [c.1], c.2)) (([] : List Int), st.2)
      else (chord_tones, st.2)
    (List.range 16).foldl (fun st2 i =>
      let note := seqs.1.getD (i % seqs.1.length) 0
      let f := st2.2.nextFloat
      if f.1 < 1/10 then (st2.1, f.2)
      else
        let r := pyRandint (-10) 20 f.2
        (st2.1 ++ [⟨bar_position + (i : Int) * tick_length, note,
          tick_length - 1, 50 + r.1⟩], r.2)) (st.1, seqs.2))
    (([] : List Note), s)

end MelodicGenerator

/-!  `musical_intelligence.py`.  The `try: from musical_key_engine import …`
at the top of the module succeeds (the module sits alongside it in
`src/tools/`), so `HAS_KEY_ENGINE` is `True`; both branches of each
`if HAS_KEY_ENGINE …` are nevertheless embedded below. -/

def HAS_KEY_ENGINE : Bool := true

/-- A groove template dict `{'pattern', 'velocities', 'swing'}`. -/
structure Groove where
  pattern : List Int
  velocities : List Int
  swing : ℚ
deriving DecidableEq

instance : Inhabited Groove := ⟨⟨[], [], 0⟩⟩

namespace GrooveTemplate

/-- `GrooveTemplate.KICK_GROOVES` (lines 25–61). -/
def KICK_GROOVES : List (String × Groove) :=
  [("house_4x4", ⟨[1,0,0,0, 1,0,0,0, 1,0,0,0, 1,0,0,0],
     [127,0,0,0, 110,0,0,0, 120,0,0,0, 110,0,0,0], 0⟩),
   ("house_garage", ⟨[1,0,0,0, 0,0,0,1, 1,0,0,0, 0,0,0,0],
     [120,0,0,0, 0,0,0,90, 115,0,0,0, 0,0,0,0], 15/100⟩),
   ("techno_driving", ⟨[1,0,0,1, 1,0,0,0, 1,0,0,1, 1,0,0,0],
     [127,0,0,70, 120,0,0,0, 125,0,0,70, 120,0,0,0], 0⟩),
   ("techno_minimal", ⟨[1,0,0,0, 0,0,0,0, 1,0,0,0, 0,0,1,0],
     [120,0,0,0, 0,0,0,0, 115,0,0,0, 0,0,80,0], 0⟩),
   ("dnb_classic", ⟨[1,0,0,0, 0,0,0,0, 0,0,1,0, 0,0,0,0],
     [120,0,0,0, 0,0,0,0, 0,0,110,0, 0,0,0,0], 0⟩),
   ("trap_minimal", ⟨[1,0,0,0, 0,0,0,0, 0,0,0,0, 1,0,0,0],
     [127,0,0,0, 0,0,0,0, 0,0,0,0, 100,0,0,0], 0⟩),
   ("hip_hop_boom_bap", ⟨[1,0,0,0, 0,0,1,0, 0,0,1,0, 0,0,0,0],
     [120,0,0,0, 0,0,60,0, 0,0,100,0, 0,0,0,0], 25/100⟩)]

/-- `GrooveTemplate.SNARE_GROOVES` (lines 64–90). -/
def SNARE_GROOVES : List (String × Groove) :=
  [("backbeat", ⟨[0,0,0,0, 1,0,0,0, 0,0,0,0, 1,0,0,0],
     [0,0,0,0, 100,0,0,0, 0,0,0,0, 100,0,0,0], 0⟩),
   ("garage_snare", ⟨[0,0,0,0, 1,0,0,0, 0,0,0,0, 1,0,0,1],
     [0,0,0,0, 100,0,0,0, 0,0,0,0, 100,0,0,60], 1/10⟩),
   ("dnb_snare", ⟨[0,0,0,0, 0,0,0,0, 1,0,0,0, 0,0,0,0],
     [0,0,0,0, 0,0,0,0, 120,0,0,0, 0,0,0,0], 0⟩),
   ("trap_snare", ⟨[0,0,0,0, 0,0,0,0, 0,0,0,0, 1,0,0,0],
     [0,0,0,0, 0,0,0,0, 0,0,0,0, 110,0,0,0], 0⟩),
   ("techno_clap", ⟨[0,0,0,0, 1,0,0,1, 0,0,0,0, 1,0,0,0],
     [0,0,0,0, 90,0,0,50, 0,0,0,0, 90,0,0,0], 0⟩)]

/-- `GrooveTemplate.HAT_GROOVES` (lines 93–124). -/
def HAT_GROOVES : List (String × Groove) :=
  [("straight_16ths", ⟨[1,1,1,1, 1,1,1,1, 1,1,1,1, 1,1,1,1],
     [70,50,60,50, 70,50,60,50, 70,50,60,50, 70,50,60,50], 0⟩),
   ("house_hats", ⟨[0,1,0,1, 0,1,0,1, 0,1,0,1, 0,1,0,1],
     [0,70,0,60, 0,70,0,60, 0,70,0,60, 0,70,0,60], 0⟩),
   ("garage_skip", ⟨[1,0,1,1, 0,1,1,0, 1,0,1,1, 0,1,1,0],
     [70,0,50,60, 0,65,55,0, 70,0,50,60, 0,65,55,0], 1/5⟩),
   ("trap_hats", ⟨[1,0,1,0, 1,1,0,1, 1,0,1,0, 1,1,1,1],
     [80,0,60,0, 70,70,0,60, 80,0,60,0, 70,60,50,40], 0⟩),
   ("techno_minimal", ⟨[0,0,1,0, 0,0,1,0, 0,0,1,0, 0,0,1,0],
     [0,0,60,0, 0,0,60,0, 0,0,60,0, 0,0,60,0], 0⟩),
   ("dnb_ride", ⟨[1,1,1,1, 1,1,1,1, 1,1,1,1, 1,1,1,1],
     [60,55,58,55, 60,55,58,55, 60,55,58,55, 60,55,58,55], 0⟩)]

/-- `GrooveTemplate.get_groove(genre, element)` (lines 127–174): exact
lookup through `genre_map`, else the per-element default groove. -/
def get_groove (genre element : String) : Groove :=
  let genre_map : List (String × List (String × String)) :=
    [("house", [("kick", "house_4x4"), ("snare", "backbeat"),
       ("hat", "house_hats")]),
     ("techno", [("kick", "techno_driving"), ("snare", "techno_clap"),
       ("hat", "techno_minimal")]),
     ("dnb", [("kick", "dnb_classic"), ("snare", "dnb_snare"),
       ("hat", "dnb_ride")]),
     ("trap", [("kick", "trap_minimal"), ("snare", "trap_snare"),
       ("hat", "trap_hats")]),
     ("garage", [("kick", "house_garage"), ("snare", "garage_snare"),
       ("hat", "garage_skip")])]
  let named :=
    match genre_map.lookup genre with
    | some m =>
      match m.lookup element with
      | some groove_name =>
        if element = "kick" then
          some ((KICK_GROOVES.lookup groove_name).getD
            ((KICK_GROOVES.lookup "house_4x4").getD default))
        else if element = "snare" then
          some ((SNARE_GROOVES.lookup groove_name).getD
            ((SNARE_GROOVES.lookup "backbeat").getD default))
        else if element = "hat" then
          some ((HAT_GROOVES.lookup groove_name).getD
            ((HAT_GROOVES.lookup "straight_16ths").getD default))
        else none
      | none => none
    | none => none
  match named with
  | some g => g
  | none =>
    if element = "kick" then (KICK_GROOVES.lookup "house_4x4").getD default
    else if element = "snare" then (SNARE_GROOVES.lookup "backbeat").getD default
    else (HAT_GROOVES.lookup "straight_16ths").getD default

end GrooveTemplate

namespace HarmonicEngine

/-- `HarmonicEngine.PROGRESSIONS` (lines 181–192). -/
def PROGRESSIONS : List (String × List String) :=
  [("house_classic", ["Am", "F", "C", "G"]),
   ("house_deep", ["Dm7", "G7", "Cmaj7", "Am7"]),
   ("techno_dark", ["Am", "Am", "Am", "Am"]),
   ("techno_melodic", ["Am", "F", "G", "Em"]),
   ("dnb_liquid", ["F#m", "D", "A", "E"]),
   ("trap_dark", ["Cm", "Cm", "Gm", "Fm"]),
   ("future_bass", ["Cmaj7", "Am7", "Dm7", "G7"]),
   ("emotional", ["Am", "F", "C", "Em"]),
   ("uplifting", ["C", "G", "Am", "F"]),
   ("minimal", ["Am", "Am", "Dm", "Dm"])]

/-- `HarmonicEngine.CHORD_NOTES` (lines 195–204). -/
def CHORD_NOTES : List (String × List Int) :=
  [("C", [36, 40, 43]), ("Cm", [36, 39, 43]), ("Cmaj7", [36, 40, 43, 47]),
   ("D", [38, 42, 45]), ("Dm", [38, 41, 45]), ("Dm7", [38, 41, 45, 48]),
   ("E", [40, 44, 47]), ("Em", [40, 43, 47]), ("Em7", [40, 43, 47, 50]),
   ("F", [41, 45, 48]), ("Fm", [41, 44, 48]), ("Fmaj7", [41, 45, 48, 52]),
   ("G", [43, 47, 50]), ("Gm", [43, 46, 50]), ("G7", [43, 47, 50, 53]),
   ("A", [45, 49, 52]), ("Am", [45, 48, 52]), ("Am7", [45, 48, 52, 55]),
   ("B", [47, 51, 54]), ("Bm", [47, 50, 54]), ("Bmaj7", [47, 51, 54, 58]),
   ("F#m", [42, 45, 49]), ("C#m", [37, 40, 44]), ("G#m", [44, 47, 51])]

/-- `HarmonicEngine.get_progression(genre, mood)` (lines 206–227):
exact mood match first, then substring genre match. -/
def get_progression (genre : String) (mood : Option String) : List String :=
  if mood = some "dark" then (PROGRESSIONS.lookup "techno_dark").getD []
  else if mood = some "uplifting" then (PROGRESSIONS.lookup "uplifting").getD []
  else if mood = some "emotional" then (PROGRESSIONS.lookup "emotional").getD []
  else if pyIn "house" genre then (PROGRESSIONS.lookup "house_classic").getD []
  else if pyIn "techno" genre then (PROGRESSIONS.lookup "techno_melodic").getD []
  else if pyIn "dnb" genre ∨ pyIn "drum" genre then
    (PROGRESSIONS.lookup "dnb_liquid").getD []
  else if pyIn "trap" genre then (PROGRESSIONS.lookup "trap_dark").getD []
  else (PROGRESSIONS.lookup "house_classic").getD []

end HarmonicEngine

namespace MixingEngine

/-- `MixingEngine.get_eq_settings(element, genre)` (lines 294–349); the
`genre` argument is accepted and ignored by the source. -/
def get_eq_settings (element : String) (genre : String) : List (String × ℚ) :=
  let eq_presets : List (String × List (String × ℚ)) :=
    [("kick", [("hp_freq", 30), ("lp_freq", 8000), ("boost_freq", 60),
       ("boost_gain", 3), ("notch_freq", 250), ("notch_gain", -2)]),
     ("bass", [("hp_freq", 40), ("lp_freq", 3000), ("boost_freq", 100),
       ("boost_gain", 2), ("notch_freq", 60), ("notch_gain", -3)]),
     ("snare", [("hp_freq", 150), ("lp_freq", 12000), ("boost_freq", 200),
       ("boost_gain", 2), ("boost2_freq", 5000), ("boost2_gain", 3)]),
     ("hat", [("hp_freq", 500), ("lp_freq", 18000), ("boost_freq", 8000),
       ("boost_gain", 2), ("shelf_freq", 10000), ("shelf_gain", 1)]),
     ("lead", [("hp_freq", 200), ("lp_freq", 12000), ("boost_freq", 2000),
       ("boost_gain", 2), ("presence_freq", 5000), ("presence_gain", 1)]),
     ("pad", [("hp_freq", 100), ("lp_freq", 10000), ("notch_freq", 500),
       ("notch_gain", -2), ("air_freq", 12000), ("air_gain", 1)])]
  (eq_presets.lookup element).getD []

/-- `MixingEngine.get_compression_settings(element)` (lines 351–393). -/
def get_compression_settings (element : String) : List (String × ℚ) :=
  let comp_presets : List (String × List (String × ℚ)) :=
    [("kick", [("threshold", -12), ("ratio", 4), ("attack", 5),
       ("release", 50), ("knee", 2)]),
     ("bass", [("threshold", -15), ("ratio", 3), ("attack", 10),
       ("release", 100), ("knee", 2)]),
     ("snare", [("threshold", -10), ("ratio", 3), ("attack", 2),
       ("release", 80), ("knee", 1)]),
     ("hat", [("threshold", -18), ("ratio", 2), ("attack", 1/2),
       ("release", 30), ("knee", 1)]),
     ("master", [("threshold", -6), ("ratio", 2), ("attack", 10),
       ("release", 100), ("knee", 3)])]
  (comp_presets.lookup element).getD []

/-- `MixingEngine.get_sidechain_settings(source, target)` (lines 395–416). -/
def get_sidechain_settings (source target : String) : List (String × ℚ) :=
  if source = "kick" ∧ target = "bass" then
    [("threshold", -20), ("ratio", 8), ("attack", 1/10), ("release", 100),
     ("amount", 7/10)]
  else if source = "kick" ∧ (target = "pad" ∨ target = "lead") then
    [("threshold", -15), ("ratio", 4), ("attack", 1/10), ("release", 150),
     ("amount", 1/2)]
  else []

end MixingEngine

/-- Result of `_generate_drums`: note lists plus EQ/compression dicts. -/
structure DrumsResult where
  kick : List Note
  snare : List Note
  hat : List Note
  kick_eq : List (String × ℚ)
  kick_comp : List (String × ℚ)
  snare_eq : List (String × ℚ)
  snare_comp : List (String × ℚ)
  hat_eq : List (String × ℚ)
deriving DecidableEq

/-- Result of `_generate_bass`. -/
structure BassResult where
  notes : List Note
  eq : List (String × ℚ)
  compression : List (String × ℚ)
  sidechain : List (String × ℚ)
deriving DecidableEq

/-- One entry (`lead`, `arp` or `pad`) of the `_generate_melodic` dict. -/
structure PartResult where
  notes : List Note
  eq : List (String × ℚ)
deriving DecidableEq

/-- The `_generate_melodic` dict; a `none` field means the key is absent. -/
structure MelodicResult where
  lead : Option PartResult
  arp : Option PartResult
  pad : Option PartResult
deriving DecidableEq

/-- The `reverb_send` dict of `_generate_mix_settings`. -/
structure ReverbSend where
  amount : ℚ
  size : ℚ
  damping : ℚ
deriving DecidableEq

/-- The `delay_send` dict of `_generate_mix_settings`. -/
structure DelaySend where
  amount : ℚ
  time : String
  feedback : ℚ
deriving DecidableEq

/-- The `_generate_mix_settings` dict. -/
structure MixSettings where
  master_eq : List (String × ℚ)
  master_compression : List (String × ℚ)
  reverb_send : ReverbSend
  delay_send : DelaySend
deriving DecidableEq

/-- The `_generate_arrangement` dict. -/
structure Arrangement where
  intro : Int
  main : Int
  breakdown : Int
  outro : Int
  total_bars : Int
deriving DecidableEq

/-- The `'tracks'` sub-dict of `generate_track`'s result. -/
structure TracksResult where
  drums : DrumsResult
  bass : BassResult
  melodic : MelodicResult
deriving DecidableEq

/-- The full `generate_track` result dict. -/
structure TrackResult where
  tempo : Int
  key : String
  scale : String
  progression : List String
  tracks : TracksResult
  mixing : MixSettings
  arrangement : Arrangement
deriving DecidableEq

namespace MusicalIntelligence

/-- `MusicalIntelligence._get_tempo_for_genre(genre)` (lines 501–518):
first dict key that is a substring of the lowercased genre, else 128. -/
def getTempoForGenre (genre : String) : Int :=
  let tempos : List (String × Int) :=
    [("house", 125), ("techno", 130), ("dnb", 174), ("dubstep", 140),
     ("trap", 140), ("garage", 130), ("ambient", 90), ("trance", 138)]
  match tempos.find? (fun kv => pyIn kv.1 genre.toLower) with
  | some kv => kv.2
  | none => 128

/-- `MusicalIntelligence._get_key_for_genre(genre, mood)` (lines 520–545):
mood-keyed random choice, then genre-keyed random choice, else `'C'`. -/
def getKeyForGenre (genre : String) (mood : Option String) (s : PyRand) :
    String × PyRand :=
  let moodBranch : Option (String × PyRand) :=
    match mood with
    | some m =>
      if m ≠ "" then
        if pyIn "dark" m.toLower then
          some (pyChoice (["A", "D", "F#", "C#"] : List String) s)
        else if pyIn "happy" m.toLower ∨ pyIn "uplifting" m.toLower then
          some (pyChoice (["C", "G", "D", "F"] : List String) s)
        else if pyIn "sad" m.toLower ∨ pyIn "emotional" m.toLower then
          some (pyChoice (["A", "E", "B", "F#"] : List String) s)
        else none
      else none
    | none => none
  match moodBranch with
  | some r => r
  | none =>
    let genre_keys : List (String × List String) :=
      [("house", ["C", "F", "G", "A"]), ("techno", ["A", "D", "E", "C"]),
       ("dnb", ["F#", "D", "A", "E"]), ("trap", ["C", "F", "Bb", "Eb"]),
       ("trance", ["A", "E", "D", "G"])]
    match genre_keys.find? (fun kv => pyIn kv.1 genre.toLower) with
    | some kv => pyChoice kv.2 s
    | none => ("C", s)

/-- `MusicalIntelligence._get_scale_for_mood(mood, genre)` (lines 547–573). -/
def getScaleForMood (mood : Option String) (genre : String) (s : PyRand) :
    String × PyRand :=
  let moodBranch : Option (String × PyRand) :=
    match mood with
    | some m =>
      if m ≠ "" then
        if pyIn "dark" m.toLower then
          some (pyChoice (["minor", "harmonic_minor", "phrygian"] : List String) s)
        else if pyIn "happy" m.toLower then some ("major", s)
        else if pyIn "uplifting" m.toLower then
          some (pyChoice (["major", "lydian"] : List String) s)
        else if pyIn "sad" m.toLower then some ("minor", s)
        else if pyIn "emotional" m.toLower then
          some (pyChoice (["minor", "dorian"] : List String) s)
        else if pyIn "exotic" m.toLower then
          some (pyChoice (["arabian", "japanese", "hungarian_minor"] : List String) s)
        else none
      else none
    | none => none
  match moodBranch with
  | some r => r
  | none =>
    if genre ≠ "" then
      if pyIn "techno" genre.toLower then
        pyChoice (["minor", "dorian", "phrygian"] : List String) s
      else if pyIn "house" genre.toLower then
        pyChoice (["major", "minor"] : List String) s
      else if pyIn "trap" genre.toLower then
        pyChoice (["minor", "harmonic_minor"] : List String) s
      else ("minor", s)
    else ("minor", s)

/-- `MusicalIntelligence._get_progression_type(genre, mood)` (lines 575–596). -/
def getProgressionType (genre : String) (mood : Option String) : String :=
  let moodBranch : Option String :=
    match mood with
    | some m =>
      if m ≠ "" then
        if pyIn "dark" m.toLower then some "minimal"
        else if pyIn "sad" m.toLower then some "sad"
        else if pyIn "uplifting" m.toLower then some "epic"
        else if pyIn "emotional" m.toLower then some "sad"
        else none
      else none
    | none => none
  match moodBranch with
  | some r => r
  | none =>
    if pyIn "house" genre.toLower then "pop"
    else if pyIn "techno" genre.toLower then "minimal"
    else if pyIn "jazz" genre.toLower then "jazz"
    else "pop"

/-- `MusicalIntelligence._generate_drums(genre, bars)` (lines 598–680).
Kick and snare consume no randomness; each sounded hat hit draws a float
(only when `i % 8 == 7`, by `and` short-circuit) and a velocity jitter. -/
def generateDrums (genre : String) (bars : Nat) (s : PyRand) :
    DrumsResult × PyRand :=
  let kick_groove := GrooveTemplate.get_groove genre "kick"
  let snare_groove := GrooveTemplate.get_groove genre "snare"
  let hat_groove := GrooveTemplate.get_groove genre "hat"
  let fin := (List.range bars).foldl (fun st bar =>
    let bar_start : Int := (bar : Int) * 48
    let variation := bar % 4 = 3
    let kick := st.1 ++ (List.range kick_groove.pattern.length).filterMap
      (fun i =>
        if kick_groove.pattern.getD i 0 ≠ 0 then
          let swing_offset : Int :=
            if i % 2 = 1 ∧ kick_groove.swing > 0 then
              pyInt (kick_groove.swing * 3)
            else 0
          some ⟨bar_start + (i : Int) * 3 + swing_offset, 36, 12,
            kick_groove.velocities.getD i 0⟩
        else none)
    let snare := st.2.1 ++ (List.range snare_groove.pattern.length).flatMap
      (fun i =>
        if snare_groove.pattern.getD i 0 ≠ 0 then
          if variation ∧ i = 15 then
            (List.range 4).map (fun j =>
              ⟨bar_start + (i : Int) * 3 - (j : Int) * 3, 38, 3,
               80 + (j : Int) * 10⟩)
          else
            [⟨bar_start + (i : Int) * 3, 38, 9,
              snare_groove.velocities.getD i 0⟩]
        else [])
    let hat := (List.range hat_groove.pattern.length).foldl (fun h i =>
      if hat_groove.pattern.getD i 0 ≠ 0 then
        let op :=
          if i % 8 = 7 then
            let f := h.2.nextFloat
            (decide (f.1 < 3/10), f.2)
          else (false, h.2)
        let swing_offset : Int :=
          if i % 2 = 1 ∧ hat_groove.swing > 0 then
            pyInt (hat_groove.swing * 2)
          else 0
        let r := pyRandint (-5) 5 op.2
        (h.1 ++ [⟨bar_start + (i : Int) * 3 + swing_offset,
          if op.1 then 46 else 42, if op.1 then 6 else 3,
          hat_groove.velocities.getD i 0 + r.1⟩], r.2)
      else h) (st.2.2.1, st.2.2.2)
    (kick, snare, hat.1, hat.2))
    (([] : List Note), ([] : List Note), ([] : List Note), s)
  ({ kick := fin.1, snare := fin.2.1, hat := fin.2.2.1,
     kick_eq := MixingEngine.get_eq_settings "kick" genre,
     kick_comp := MixingEngine.get_compression_settings "kick",
     snare_eq := MixingEngine.get_eq_settings "snare" genre,
     snare_comp := MixingEngine.get_compression_settings "snare",
     hat_eq := MixingEngine.get_eq_settings "hat" genre }, fin.2.2.2)

/-- The chord-string parser of `_generate_bass` (lines 691–709): sharp or
flat makes a two-character root; type map `m7 → min7`, `maj7 → maj7`,
`m → minor`, `dim → dim`, default `major`. -/
def parseChordBass (chord_str : String) : ChordRT :=
  let cs := chord_str.data
  let two := cs.length > 1 ∧ (cs.getD 1 ' ' = '#' ∨ cs.getD 1 ' ' = 'b')
  let root := if two then String.mk (cs.take 2) else String.mk (cs.take 1)
  let type_str := if two then String.mk (cs.drop 2) else String.mk (cs.drop 1)
  let ctype :=
    if pyIn "m7" type_str then "min7"
    else if pyIn "maj7" type_str then "maj7"
    else if pyIn "m" type_str then "minor"
    else if pyIn "dim" type_str then "dim"
    else "major"
  ⟨root, ctype⟩

/-- The chord-string parser of the arpeggio block of `_generate_melodic`
(lines 805–819): only `m → minor` and `dim → dim` are mapped. -/
def parseChordArp (chord_str : String) : ChordRT :=
  let cs := chord_str.data
  let two := cs.length > 1 ∧ (cs.getD 1 ' ' = '#' ∨ cs.getD 1 ' ' = 'b')
  let root := if two then String.mk (cs.take 2) else String.mk (cs.take 1)
  let type_str := if two then String.mk (cs.drop 2) else String.mk (cs.drop 1)
  let ctype :=
    if pyIn "m" type_str then "minor"
    else if pyIn "dim" type_str then "dim"
    else "major"
  ⟨root, ctype⟩

/-- The chord-string parser of the pad block of `_generate_melodic`
(lines 840–853): `m7 → min7`, `maj7 → maj7`, `m → minor`, no `dim` case. -/
def parseChordPad (chord_str : String) : ChordRT :=
  let cs := chord_str.data
  let two := cs.length > 1 ∧ (cs.getD 1 ' ' = '#' ∨ cs.getD 1 ' ' = 'b')
  let root := if two then String.mk (cs.take 2) else String.mk (cs.take 1)
  let type_str := if two then String.mk (cs.drop 2) else String.mk (cs.drop 1)
  let ctype :=
    if pyIn "m7" type_str then "min7"
    else if pyIn "maj7" type_str then "maj7"
    else if pyIn "m" type_str then "minor"
    else "major"
  ⟨root, ctype⟩

/-- `MusicalIntelligence._generate_bass(progression, genre, bars)`
(lines 682–774).  `key` is the key signature held by the melodic
generator; the melodic generator exists exactly when the key engine
imported, so the fallback branch keys on `HAS_KEY_ENGINE` alone. -/
def generateBass (key : KeySignature) (progression : List String)
    (genre : String) (bars : Nat) (s : PyRand) : BassResult × PyRand :=
  let bn :=
    if HAS_KEY_ENGINE then
      let chord_objects := progression.map parseChordBass
      let bl := MelodicGenerator.generate_bass_line key chord_objects bars s
      let h1 := HumanizeEngine.humanize_timing bl.1 (3/100) bl.2
      let h2 := HumanizeEngine.humanize_velocity h1.1 (1/10) h1.2
      if genre.toLower ∈ (["house", "garage", "jazz"] : List String) then
        (HumanizeEngine.add_swing h2.1 (15/100), h2.2)
      else h2
    else
      ((List.range bars).flatMap (fun bar =>
        let chord := progression.getD (bar % progression.length) ""
        let bar_start : Int := (bar : Int) * 48
        let chord_notes :=
          (HarmonicEngine.CHORD_NOTES.lookup chord).getD [36, 40, 43]
        let root := chord_notes.getD 0 0
        let pattern : List (Int × Int × Int × Int) :=
          if pyIn "house" genre.toLower then
            [(0, root, 10, 100), (12, root, 10, 90),
             (24, root + 12, 10, 85), (36, root, 10, 95)]
          else if pyIn "techno" genre.toLower then
            [(0, root, 11, 100), (12, root, 11, 95),
             (24, root, 11, 95), (36, root, 11, 90)]
          else if pyIn "dnb" genre.toLower then
            [(0, root, 48, 100)]
          else
            [(0, root, 20, 100),
             (24, if chord_notes.length > 2 then chord_notes.getD 2 0
                  else root + 7, 20, 90)]
        pattern.map (fun e =>
          ⟨bar_start + e.1, e.2.1, e.2.2.1, e.2.2.2⟩)), s)
  ({ notes := bn.1,
     eq := MixingEngine.get_eq_settings "bass" genre,
     compression := MixingEngine.get_compression_settings "bass",
     sidechain := MixingEngine.get_sidechain_settings "kick" "bass" }, bn.2)

/-- `MusicalIntelligence._generate_melody(progression, bars)`
(lines 910–943), the fallback lead generator. -/
def generateMelodyFallback (progression : List String) (bars : Nat)
    (s : PyRand) : List Note × PyRand :=
  let patterns : List (List Int) :=
    [[0, 12, 24, 30, 36], [0, 6, 24, 36], [0, 18, 24, 42]]
  (List.range bars).foldl (fun st bar =>
    let chord := progression.getD (bar % progression.length) ""
    let bar_start : Int := (bar : Int) * 48
    let chord_notes :=
      ((HarmonicEngine.CHORD_NOTES.lookup chord).getD [60, 64, 67]).map
        (fun n => n + 24)
    let pk := pyChoice patterns st.2
    pk.1.foldl (fun st2 pos =>
      if pos < 48 then
        let pc := pyChoice chord_notes st2.2
        let r := pyRandint (-10) 10 pc.2
        (st2.1 ++ [⟨bar_start + pos, pc.1, 6, 70 + r.1⟩], r.2)
      else st2) (st.1, pk.2)) (([] : List Note), s)

/-- `MusicalIntelligence._generate_melodic(progression, genre, mood, bars)`
(lines 776–908): optional lead, arp and pad parts. -/
def generateMelodic (key : KeySignature) (progression : List String)
    (genre : String) (mood : Option String) (bars : Nat) (s : PyRand) :
    MelodicResult × PyRand :=
  if HAS_KEY_ENGINE then
    let leadCond := mood ∈ [some "uplifting", some "emotional", some "happy"]
      ∨ pyIn "trance" genre ∨ pyIn "house" genre
    let lead :=
      if leadCond then
        let mel := MelodicGenerator.generate_melody key bars
          (if pyIn "trance" genre then 16 else 8) 5 6 s
        let h1 := HumanizeEngine.humanize_timing mel.1 (8/100) mel.2
        let h2 := HumanizeEngine.humanize_velocity h1.1 (1/5) h1.2
        (some (⟨h2.1, MixingEngine.get_eq_settings "lead" genre⟩ : PartResult),
         h2.2)
      else (none, s)
    let arpCond := pyIn "trance" genre ∨ pyIn "house" genre
      ∨ mood = some "uplifting"
    let arp :=
      if arpCond then
        let chord_objects := progression.map parseChordArp
        let arp_pattern := if pyIn "trance" genre then "updown" else "up"
        let an := MelodicGenerator.generate_arpeggio key chord_objects bars
          arp_pattern lead.2
        (some (⟨an.1, MixingEngine.get_eq_settings "lead" genre⟩ : PartResult),
         an.2)
      else (none, lead.2)
    let pad :=
      if genre ∉ (["techno", "minimal"] : List String) then
        let pn := (List.range bars).foldl (fun st bar =>
          let chord_str := progression.getD (bar % progression.length) ""
          let bar_start : Int := (bar : Int) * 48
          let c := parseChordPad chord_str
          let chord_notes := Scale.get_chord_tones c.root c.type 4
          chord_notes.foldl (fun st2 note =>
            let r1 := pyRandint 0 2 st2.2
            let r2 := pyRandint (-5) 5 r1.2
            let r3 := pyRandint 1 3 r2.2
            (st2.1 ++ [⟨bar_start + r1.1, note, 48 - r3.1, 50 + r2.1⟩],
             r3.2)) st) (([] : List Note), arp.2)
        (some (⟨pn.1, MixingEngine.get_eq_settings "pad" genre⟩ : PartResult),
         pn.2)
      else (none, arp.2)
    (⟨lead.1, arp.1, pad.1⟩, pad.2)
  else
    let pad :=
      if genre ∉ (["techno", "minimal"] : List String) then
        let pad_notes := (List.range bars).flatMap (fun bar =>
          let chord := progression.getD (bar % progression.length) ""
          let bar_start : Int := (bar : Int) * 48
          let chord_notes :=
            ((HarmonicEngine.CHORD_NOTES.lookup chord).getD [48, 52, 55]).map
              (fun n => n + 24)
          chord_notes.map (fun note => ⟨bar_start, note, 48, 60⟩))
        (some (⟨pad_notes, MixingEngine.get_eq_settings "pad" genre⟩ :
          PartResult), s)
      else (none, s)
    let lead :=
      if mood ∈ [some "uplifting", some "emotional"] ∨ pyIn "trance" genre then
        let ln := generateMelodyFallback progression bars pad.2
        (some (⟨ln.1, MixingEngine.get_eq_settings "lead" genre⟩ : PartResult),
         ln.2)
      else (none, pad.2)
    (⟨lead.1, none, pad.1⟩, lead.2)

/-- `MusicalIntelligence._generate_mix_settings(genre)` (lines 945–966). -/
def generateMixSettings (genre : String) : MixSettings :=
  { master_eq := [("hp_freq", 20), ("lp_freq", 20000),
      ("low_shelf", if genre ∈ (["house", "techno"] : List String) then 1 else 0),
      ("high_shelf", if genre ∈ (["trance", "dnb"] : List String) then 1 else 0)],
    master_compression := MixingEngine.get_compression_settings "master",
    reverb_send :=
      ⟨if genre ∈ (["house", "techno"] : List String) then 1/5 else 3/10,
       2/5, 1/2⟩,
    delay_send :=
      ⟨3/20, if genre ∈ (["house", "techno"] : List String) then "1/8" else "1/4",
       3/10⟩ }

/-- `MusicalIntelligence._generate_arrangement(bars)` (lines 968–977). -/
def generateArrangement (bars : Int) : Arrangement :=
  ⟨if bars > 8 then 4 else 2, bars, if bars > 8 then 4 else 0,
   if bars > 8 then 4 else 2, if bars > 8 then bars + 8 else bars + 4⟩

/-- `MusicalIntelligence.generate_track(genre, mood, bars, tempo, key)`
(lines 429–499).  The module-level `random` stream is passed in
explicitly as `s` and threaded through every helper in source order. -/
def generate_track (genre : String) (mood : Option String) (bars : Nat)
    (tempo : Option Int) (key : Option String) (s : PyRand) :
    TrackResult × PyRand :=
  let tempoVal : Int :=
    match tempo with
    | some t => if t = 0 then getTempoForGenre genre else t
    | none => getTempoForGenre genre
  let setup :=
    if HAS_KEY_ENGINE then
      let kv :=
        match key with
        | some k => if k = "" then getKeyForGenre genre mood s else (k, s)
        | none => getKeyForGenre genre mood s
      let sv := getScaleForMood mood genre kv.2
      let key_signature := KeySignature.make kv.1 sv.1
      let prog_type := getProgressionType genre mood
      let chord_objects := key_signature.get_chord_progression prog_type
      let progression := chord_objects.map (fun c =>
        if c.type = "minor" then c.root ++ "m"
        else if c.type = "dim" then c.root ++ "dim"
        else if c.type = "maj7" then c.root ++ "maj7"
        else if c.type = "min7" then c.root ++ "m7"
        else c.root)
      (kv.1, sv.1, key_signature, progression, sv.2)
    else
      ("C", "major", KeySignature.make "C" "major",
       HarmonicEngine.get_progression genre mood, s)
  let keyVal := setup.1
  let scaleVal := setup.2.1
  let key_signature := setup.2.2.1
  let progression := setup.2.2.2.1
  let d0 := generateDrums genre bars setup.2.2.2.2
  let drums :=
    if HAS_KEY_ENGINE then
      let k :=
        if d0.1.kick ≠ [] then
          let t := HumanizeEngine.humanize_timing d0.1.kick (5/100) d0.2
          HumanizeEngine.humanize_velocity t.1 (15/100) t.2
        else (d0.1.kick, d0.2)
      let sn :=
        if d0.1.snare ≠ [] then
          let t := HumanizeEngine.humanize_timing d0.1.snare (5/100) k.2
          HumanizeEngine.humanize_velocity t.1 (15/100) t.2
        else (d0.1.snare, k.2)
      let h :=
        if d0.1.hat ≠ [] then
          let t := HumanizeEngine.humanize_timing d0.1.hat (5/100) sn.2
          HumanizeEngine.humanize_velocity t.1 (15/100) t.2
        else (d0.1.hat, sn.2)
      ({ d0.1 with kick := k.1, snare := sn.1, hat := h.1 }, h.2)
    else d0
  let bass := generateBass key_signature progression genre bars drums.2
  let melodic := generateMelodic key_signature progression genre mood bars
    bass.2
  ({ tempo := tempoVal,
     key := if HAS_KEY_ENGINE then keyVal else "C",
     scale := if HAS_KEY_ENGINE then scaleVal else "major",
     progression := progression,
     tracks := ⟨drums.1, bass.1, melodic.1⟩,
     mixing := generateMixSettings genre,
     arrangement := generateArrangement (bars : Int) }, melodic.2)

end MusicalIntelligence

/-! ### Theorems -/

namespace EuclideanRhythm

theorem gbuild_two (A B : List Nat) (cs rs : List Int) :
    gbuild A B cs rs 2
      = (List.replicate (cs.getD 0 0).toNat (gbuild A B cs rs 1)).flatten
        ++ (if rs.getD 0 0 ≠ 0 then gbuild A B cs rs 0 else []) := rfl

theorem gbuild_shift (A B : List Nat) (c r : Int) (cs rs : List Int) :
    ∀ i, gbuild A B (c :: cs) (r :: rs) (i + 1)
      = gbuild B (gbuild A B (c :: cs) (r :: rs) 2) cs rs i := by
  intro i
  induction i using Nat.strong_induction_on with
  | _ i ih =>
    match i with
    | 0 => rfl
    | 1 => rfl
    | i + 2 =>
      show gbuild A B (c :: cs) (r :: rs) (i + 3) = _
      rw [show gbuild A B (c :: cs) (r :: rs) (i + 3)
            = (List.replicate ((c :: cs).getD (i + 1) 0).toNat
                (gbuild A B (c :: cs) (r :: rs) (i + 2))).flatten
              ++ (if (r :: rs).getD (i + 1) 0 ≠ 0 then
                    gbuild A B (c :: cs) (r :: rs) (i + 1) else []) from rfl]
      rw [show gbuild B (gbuild A B (c :: cs) (r :: rs) 2) cs rs (i + 2)
            = (List.replicate (cs.getD i 0).toNat
                (gbuild B (gbuild A B (c :: cs) (r :: rs) 2) cs rs (i + 1))).flatten
              ++ (if rs.getD i 0 ≠ 0 then
                    gbuild B (gbuild A B (c :: cs) (r :: rs) 2) cs rs i else [])
            from rfl]
      rw [ih (i + 1) (by omega), ih i (by omega)]
      simp [List.getD_cons_succ]

theorem flatten_replicate_length (n : Nat) (l : List Nat) :
    (List.replicate n l).flatten.length = n * l.length := by
  induction n with
  | zero => simp
  | succ k ih => simp [List.replicate_succ, ih, Nat.succ_mul]; omega

theorem flatten_replicate_sum (n : Nat) (l : List Nat) :
    (List.replicate n l).flatten.sum = n * l.sum := by
  induction n with
  | zero => simp
  | succ k ih => simp [List.replicate_succ, ih, Nat.succ_mul]; omega

theorem bjorklund_stats : ∀ (fuel : Nat) (d r : Int), 0 ≤ d → 1 ≤ r →
    r.toNat < fuel → ∀ (A B : List Nat),
    ((gbuild A B (bjorklundLoop fuel d r).1 (bjorklundLoop fuel d r).2
        ((bjorklundLoop fuel d r).1.length + 1)).length : Int)
      = r * A.length + d * B.length
    ∧ ((gbuild A B (bjorklundLoop fuel d r).1 (bjorklundLoop fuel d r).2
        ((bjorklundLoop fuel d r).1.length + 1)).sum : Int)
      = r * A.sum + d * B.sum := by
  intro fuel
  induction fuel with
  | zero => intro d r _ _ hlt; omega
  | succ f ih =>
    intro d r hd hr hlt A B
    have hrpos : (0 : Int) < r := by omega
    have hr2nn : 0 ≤ d.fmod r := Int.fmod_nonneg' d hrpos
    have hr2lt : d.fmod r < r := Int.fmod_lt_of_pos d hrpos
    have hc : 0 ≤ d.fdiv r := Int.fdiv_nonneg hd (le_of_lt hrpos)
    have heq : r * (d.fdiv r) + d.fmod r = d := Int.fdiv_add_fmod d r
    show _ ∧ _
    rw [show bjorklundLoop (f + 1) d r
          = if d.fmod r ≤ 1 then ([d.fdiv r, r], [r, d.fmod r])
            else ((d.fdiv r) :: (bjorklundLoop f r (d.fmod r)).1,
                  r :: (bjorklundLoop f r (d.fmod r)).2) from rfl]
    by_cases hb : d.fmod r ≤ 1
    · simp only [if_pos hb]
      have h2 : gbuild A B [d.fdiv r, r] [r, d.fmod r] 2
          = (List.replicate (d.fdiv r).toNat B).flatten ++ A := by
        rw [gbuild_two]
        simp [show r ≠ 0 by omega, gbuild]
      have h3 : gbuild A B [d.fdiv r, r] [r, d.fmod r] 3
          = (List.replicate r.toNat (gbuild A B [d.fdiv r, r] [r, d.fmod r] 2)).flatten
            ++ (if d.fmod r ≠ 0 then B else []) := by
        rw [show gbuild A B [d.fdiv r, r] [r, d.fmod r] 3
              = (List.replicate (([d.fdiv r, r].getD 1 0)).toNat
                  (gbuild A B [d.fdiv r, r] [r, d.fmod r] 2)).flatten
                ++ (if ([r, d.fmod r].getD 1 0) ≠ 0 then
                      gbuild A B [d.fdiv r, r] [r, d.fmod r] 1 else []) from rfl]
        simp [gbuild]
      simp only [List.length_cons, List.length_nil]
      rw [show (1 + 1 + 1 : Nat) = 3 from rfl, h3, h2]
      have hd' : d = r * (d.fdiv r) + d.fmod r := by omega
      have hifL : (if d.fmod r ≠ 0 then B else []).length
          = (d.fmod r).toNat * B.length := by
        rcases (by omega : d.fmod r = 0 ∨ d.fmod r = 1) with h0 | h0 <;> simp [h0]
      have hifS : (if d.fmod r ≠ 0 then B else []).sum
          = (d.fmod r).toNat * B.sum := by
        rcases (by omega : d.fmod r = 0 ∨ d.fmod r = 1) with h0 | h0 <;> simp [h0]
      constructor
      · rw [List.length_append, flatten_replicate_length, List.length_append,
          flatten_replicate_length, hifL]
        push_cast [Int.toNat_of_nonneg hc, Int.toNat_of_nonneg (le_of_lt hrpos),
          Int.toNat_of_nonneg hr2nn]
        conv_rhs => rw [hd']
        ring
      · rw [List.sum_append, flatten_replicate_sum, List.sum_append,
          flatten_replicate_sum, hifS]
        push_cast [Int.toNat_of_nonneg hc, Int.toNat_of_nonneg (le_of_lt hrpos),
          Int.toNat_of_nonneg hr2nn]
        conv_rhs => rw [hd']
        ring
    · simp only [if_neg hb]
      have hlt2 : (d.fmod r).toNat < f := by omega
      have hstep := ih r (d.fmod r) (le_of_lt hrpos) (by omega) hlt2
      have hlen : ((d.fdiv r) :: (bjorklundLoop f r (d.fmod r)).1).length + 1
          = ((bjorklundLoop f r (d.fmod r)).1.length + 1) + 1 := by
        simp
      rw [hlen, gbuild_shift]
      have hC : gbuild A B ((d.fdiv r) :: (bjorklundLoop f r (d.fmod r)).1)
            (r :: (bjorklundLoop f r (d.fmod r)).2) 2
          = (List.replicate (d.fdiv r).toNat B).flatten ++ A := by
        rw [gbuild_two]
        simp [show r ≠ 0 by omega, gbuild]
      rw [hC]
      have hmain := hstep B ((List.replicate (d.fdiv r).toNat B).flatten ++ A)
      refine ⟨?_, ?_⟩
      · rw [hmain.1]
        have : (((List.replicate (d.fdiv r).toNat B).flatten ++ A).length : Int)
            = (d.fdiv r) * B.length + A.length := by
          push_cast [List.length_append, flatten_replicate_length,
            Int.toNat_of_nonneg hc]
          ring
        rw [this]
        have hd' : d = r * (d.fdiv r) + d.fmod r := by omega
        conv_rhs => rw [hd']
        ring
      · rw [hmain.2]
        have : (((List.replicate (d.fdiv r).toNat B).flatten ++ A).sum : Int)
            = (d.fdiv r) * B.sum + A.sum := by
          push_cast [List.sum_append, flatten_replicate_sum,
            Int.toNat_of_nonneg hc]
          ring
        rw [this]
        have hd' : d = r * (d.fdiv r) + d.fmod r := by omega
        conv_rhs => rw [hd']
        ring

end EuclideanRhythm

namespace EuclideanRhythm

theorem fmod_le_one_of_neg {a b : Int} (ha : 0 ≤ a) (hb : b < 0) :
    a.fmod b ≤ 1 := by
  obtain ⟨m, rfl⟩ := Int.eq_ofNat_of_zero_le ha
  obtain ⟨k, rfl⟩ := Int.eq_negSucc_of_lt_zero hb
  match m with
  | 0 => simp [Int.zero_fmod]
  | m + 1 =>
    show Int.subNatNat (m % (k + 1)) k ≤ 1
    rw [Int.subNatNat_eq_coe]
    have : m % (k + 1) < k + 1 := Nat.mod_lt _ (Nat.succ_pos k)
    omega

theorem build_eq_gbuild (cs rs : List Int) (i : Nat) :
    build cs rs i = gbuild [1] [0] cs rs i := rfl

/-- Claim C1: for every `pulses` and `steps` with `0 ≤ pulses ≤ steps` and
`steps > 0` (and any rotation), the Euclidean generator returns an onset
vector of length `steps` whose sum of entries equals `pulses`. -/
theorem euclidean_generate_length_and_sum (pulses steps rotation : Int)
    (h0 : 0 ≤ pulses) (h1 : pulses ≤ steps) (h2 : 0 < steps) :
    (generate pulses steps rotation).length = steps.toNat
    ∧ ((generate pulses steps rotation).sum : Int) = pulses := by
  unfold generate
  rw [if_neg (by omega : ¬ pulses > steps)]
  by_cases hp : pulses = 0
  · subst hp
    simp
  · rw [if_neg hp]
    have hge1 : 1 ≤ pulses := by omega
    have hfuel : pulses.toNat < pulses.toNat + 1 := Nat.lt_succ_self _
    have hstats := bjorklund_stats (pulses.toNat + 1) (steps - pulses) pulses
      (by omega) hge1 hfuel [1] [0]
    simp only [List.length_cons, List.length_nil, List.sum_cons,
      List.sum_nil, Nat.cast_one, Nat.cast_zero] at hstats
    simp only [build_eq_gbuild]
    have hlenI : ((gbuild [1] [0]
        (bjorklundLoop (pulses.toNat + 1) (steps - pulses) pulses).1
        (bjorklundLoop (pulses.toNat + 1) (steps - pulses) pulses).2
        ((bjorklundLoop (pulses.toNat + 1) (steps - pulses) pulses).1.length + 1)).length : Int)
        = steps := by
      rw [hstats.1]; ring
    have hsumI : ((gbuild [1] [0]
        (bjorklundLoop (pulses.toNat + 1) (steps - pulses) pulses).1
        (bjorklundLoop (pulses.toNat + 1) (steps - pulses) pulses).2
        ((bjorklundLoop (pulses.toNat + 1) (steps - pulses) pulses).1.length + 1)).sum : Int)
        = pulses := by
      rw [hstats.2]; ring
    generalize hpat : gbuild [1] [0]
        (bjorklundLoop (pulses.toNat + 1) (steps - pulses) pulses).1
        (bjorklundLoop (pulses.toNat + 1) (steps - pulses) pulses).2
        ((bjorklundLoop (pulses.toNat + 1) (steps - pulses) pulses).1.length + 1)
      = pat at hlenI hsumI ⊢
    have hplen : pat.length = steps.toNat := by omega
    have hrot : ∀ q : List Nat, q = (if rotation ≠ 0 then
          pat.drop (pyIndex pat.length rotation)
            ++ pat.take (pyIndex pat.length rotation) else pat) →
        q.length = pat.length ∧ q.sum = pat.sum := by
      intro q hq
      by_cases hr : rotation ≠ 0
      · rw [if_pos hr] at hq
        subst hq
        constructor
        · simp [List.length_append]
          omega
        · rw [List.sum_append, Nat.add_comm, List.sum_take_add_sum_drop]
      · rw [if_neg hr] at hq
        subst hq
        exact ⟨rfl, rfl⟩
    obtain ⟨hql, hqs⟩ := hrot _ rfl
    have hidx : pyIndex (if rotation ≠ 0 then
          pat.drop (pyIndex pat.length rotation)
            ++ pat.take (pyIndex pat.length rotation) else pat).length steps
        = steps.toNat := by
      unfold pyIndex
      rw [if_neg (by omega : ¬ steps < 0)]
    rw [hidx]
    have hQlen : (if rotation ≠ 0 then
          pat.drop (pyIndex pat.length rotation)
            ++ pat.take (pyIndex pat.length rotation) else pat).length
        = steps.toNat := by
      rw [hql]; exact hplen
    rw [List.take_of_length_le (le_of_eq hQlen)]
    refine ⟨hQlen, ?_⟩
    rw [hqs]
    exact hsumI

end EuclideanRhythm

namespace EuclideanRhythm

/-- Witness for claim C1: the theorem applied at `pulses = 5`, `steps = 13`,
`rotation = 2`, with all hypotheses discharged concretely. -/
theorem euclidean_generate_length_and_sum_witness :
    ((0 : Int) ≤ 5 ∧ (5 : Int) ≤ 13 ∧ (0 : Int) < 13)
    ∧ (generate 5 13 2).length = (13 : Int).toNat
    ∧ ((generate 5 13 2).sum : Int) = 5 :=
  ⟨⟨by decide, by decide, by decide⟩,
    (euclidean_generate_length_and_sum 5 13 2 (by decide) (by decide) (by decide)).1,
    (euclidean_generate_length_and_sum 5 13 2 (by decide) (by decide) (by decide)).2⟩

/-- Claim C3 (counterexample): calling the Euclidean generator with
`pulses = 4`, `steps = 16`, `rotation = 0` does NOT place onsets at indices
`0, 4, 8, 12` — the entry at index `0` is `0`. -/
theorem euclidean_4_16_not_at_0_4_8_12 :
    ¬ ((generate 4 16 0).getD 0 0 = 1 ∧ (generate 4 16 0).getD 4 0 = 1
       ∧ (generate 4 16 0).getD 8 0 = 1 ∧ (generate 4 16 0).getD 12 0 = 1) := by
  decide

/-- Claim C3 (amended): `generate(4, 16, 0)` produces a vector with exactly
4 onsets, located at indices `3, 7, 11, 15` (the code appends each group's
zeros before its one, so the onsets fall at the end of each group of four). -/
theorem euclidean_4_16_value :
    generate 4 16 0 = [0, 0, 0, 1, 0, 0, 0, 1, 0, 0, 0, 1, 0, 0, 0, 1] := by
  decide

/-- Auxiliary for claim C7: for a negative pulse count the Bjorklund phase
produces a pattern with at most one entry, which is `0`. -/
theorem neg_pulse_pattern (d r : Int) (hd : 0 ≤ d) (hr : r < 0) :
    (build (bjorklundLoop (r.toNat + 1) d r).1 (bjorklundLoop (r.toNat + 1) d r).2
      ((bjorklundLoop (r.toNat + 1) d r).1.length + 1)).length ≤ 1
    ∧ (build (bjorklundLoop (r.toNat + 1) d r).1 (bjorklundLoop (r.toNat + 1) d r).2
      ((bjorklundLoop (r.toNat + 1) d r).1.length + 1)).sum = 0 := by
  have hrt : r.toNat = 0 := by omega
  rw [hrt]
  have hb : d.fmod r ≤ 1 := fmod_le_one_of_neg hd hr
  rw [show bjorklundLoop 1 d r = ([d.fdiv r, r], [r, d.fmod r]) from by
    rw [show bjorklundLoop 1 d r
          = if d.fmod r ≤ 1 then ([d.fdiv r, r], [r, d.fmod r])
            else ((d.fdiv r) :: (bjorklundLoop 0 r (d.fmod r)).1,
                  r :: (bjorklundLoop 0 r (d.fmod r)).2) from rfl]
    rw [if_pos hb]]
  rw [build_eq_gbuild]
  rw [show ([d.fdiv r, r] : List Int).length + 1 = 3 from rfl]
  rw [show gbuild [1] [0] [d.fdiv r, r] [r, d.fmod r] 3
        = (List.replicate (([d.fdiv r, r].getD 1 0)).toNat
            (gbuild [1] [0] [d.fdiv r, r] [r, d.fmod r] 2)).flatten
          ++ (if ([r, d.fmod r].getD 1 0) ≠ 0 then
                gbuild [1] [0] [d.fdiv r, r] [r, d.fmod r] 1 else []) from rfl]
  have hrz : r.toNat = 0 := by omega
  simp only [List.getD_cons_succ, List.getD_cons_zero, hrz,
    List.replicate_zero, List.flatten_nil, List.nil_append]
  by_cases h : d.fmod r ≠ 0
  · rw [if_pos h]
    exact ⟨by simp [gbuild], by simp [gbuild]⟩
  · rw [if_neg h]
    exact ⟨by simp, by simp⟩

/-- Claim C7 (counterexample): with out-of-range parameters
(`steps = 0 ≤ 0`) the generator does not raise an invalid-parameter error;
it silently returns the value `[]`. -/
theorem generate_returns_value_on_invalid_steps :
    generate 1 0 0 = [] := by decide

theorem rotate_length (pat : List Nat) (k : Nat) :
    (pat.drop k ++ pat.take k).length = pat.length := by
  simp [List.length_append]
  omega

theorem rotate_sum (pat : List Nat) (k : Nat) :
    (pat.drop k ++ pat.take k).sum = pat.sum := by
  rw [List.sum_append, Nat.add_comm, List.sum_take_add_sum_drop]

theorem take_sum_le (q : List Nat) (n : Nat) : (q.take n).sum ≤ q.sum := by
  conv_rhs => rw [← List.sum_take_add_sum_drop q n]
  omega

theorem take_pyIndex_nil (q : List Nat) (s : Int) (hq : q.length ≤ 1)
    (hs : s ≤ 0) : q.take (pyIndex q.length s) = [] := by
  unfold pyIndex
  by_cases h : s < 0
  · rw [if_pos h]
    rw [show ((q.length : Int) + s).toNat = 0 by omega]
    rfl
  · rw [if_neg h]
    rw [show s.toNat = 0 by omega]
    rfl

/-- Claim C7 (auxiliary): with a negative clamped pulse count the generator
returns an all-zero vector of length at most one, and the empty vector when
`steps ≤ 0`. -/
theorem generate_neg_clamped (p s rot : Int)
    (hneg : (if p > s then s else p) < 0) :
    (generate p s rot).length ≤ 1 ∧ (generate p s rot).sum = 0
    ∧ (s ≤ 0 → generate p s rot = []) := by
  unfold generate
  by_cases hc : p > s
  · rw [if_pos hc] at hneg ⊢
    rw [if_neg (by omega : ¬ s = 0)]
    have hpp := neg_pulse_pattern (s - s) s (by omega) hneg
    rw [show s.toNat = 0 by omega] at hpp ⊢
    simp only [build_eq_gbuild] at hpp ⊢
    generalize hpat : gbuild [1] [0] (bjorklundLoop (0 + 1) (s - s) s).1
        (bjorklundLoop (0 + 1) (s - s) s).2
        ((bjorklundLoop (0 + 1) (s - s) s).1.length + 1) = pat at hpp ⊢
    by_cases hr : rot ≠ 0
    · rw [if_pos hr]
      have hl := rotate_length pat (pyIndex pat.length rot)
      have hsm := rotate_sum pat (pyIndex pat.length rot)
      refine ⟨?_, ?_, ?_⟩
      · rw [List.length_take]
        omega
      · have := take_sum_le (pat.drop (pyIndex pat.length rot)
          ++ pat.take (pyIndex pat.length rot))
          (pyIndex (pat.drop (pyIndex pat.length rot)
            ++ pat.take (pyIndex pat.length rot)).length s)
        omega
      · intro hs0
        exact take_pyIndex_nil _ s (by omega) hs0
    · rw [if_neg hr]
      refine ⟨?_, ?_, ?_⟩
      · rw [List.length_take]
        omega
      · have := take_sum_le pat (pyIndex pat.length s)
        omega
      · intro hs0
        exact take_pyIndex_nil _ s (by omega) hs0
  · rw [if_neg hc] at hneg ⊢
    rw [if_neg (by omega : ¬ p = 0)]
    have hpp := neg_pulse_pattern (s - p) p (by omega) hneg
    rw [show p.toNat = 0 by omega] at hpp ⊢
    simp only [build_eq_gbuild] at hpp ⊢
    generalize hpat : gbuild [1] [0] (bjorklundLoop (0 + 1) (s - p) p).1
        (bjorklundLoop (0 + 1) (s - p) p).2
        ((bjorklundLoop (0 + 1) (s - p) p).1.length + 1) = pat at hpp ⊢
    by_cases hr : rot ≠ 0
    · rw [if_pos hr]
      have hl := rotate_length pat (pyIndex pat.length rot)
      have hsm := rotate_sum pat (pyIndex pat.length rot)
      refine ⟨?_, ?_, ?_⟩
      · rw [List.length_take]
        omega
      · have := take_sum_le (pat.drop (pyIndex pat.length rot)
          ++ pat.take (pyIndex pat.length rot))
          (pyIndex (pat.drop (pyIndex pat.length rot)
            ++ pat.take (pyIndex pat.length rot)).length s)
        omega
      · intro hs0
        exact take_pyIndex_nil _ s (by omega) hs0
    · rw [if_neg hr]
      refine ⟨?_, ?_, ?_⟩
      · rw [List.length_take]
        omega
      · have := take_sum_le pat (pyIndex pat.length s)
        omega
      · intro hs0
        exact take_pyIndex_nil _ s (by omega) hs0

/-- Claim C7 (amended): the generator never raises for any integer
parameters (it is a total function); out-of-range parameters are silently
accepted rather than rejected: `steps ≤ 0` yields the empty vector, and
`pulses < 0` yields a vector with no onsets and at most one entry. -/
theorem generate_invalid_params_silent (pulses steps rotation : Int) :
    (steps ≤ 0 → generate pulses steps rotation = [])
    ∧ (pulses < 0 → (generate pulses steps rotation).sum = 0
        ∧ (generate pulses steps rotation).length ≤ 1) := by
  constructor
  · intro hs
    by_cases hcl : (if pulses > steps then steps else pulses) = 0
    · unfold generate
      by_cases hc : pulses > steps
      · rw [if_pos hc] at hcl ⊢
        rw [if_pos hcl]
        simp [show steps.toNat = 0 by omega]
      · rw [if_neg hc] at hcl ⊢
        rw [if_pos hcl]
        simp [show steps.toNat = 0 by omega]
    · have hneg : (if pulses > steps then steps else pulses) < 0 := by
        by_cases hc : pulses > steps
        · rw [if_pos hc] at hcl ⊢
          omega
        · rw [if_neg hc] at hcl ⊢
          omega
      exact (generate_neg_clamped pulses steps rotation hneg).2.2 hs
  · intro hp
    by_cases hs : steps ≤ 0
    · by_cases hcl : (if pulses > steps then steps else pulses) = 0
      · have : generate pulses steps rotation = [] := by
          unfold generate
          by_cases hc : pulses > steps
          · rw [if_pos hc] at hcl ⊢
            rw [if_pos hcl]
            simp [show steps.toNat = 0 by omega]
          · rw [if_neg hc] at hcl ⊢
            rw [if_pos hcl]
            simp [show steps.toNat = 0 by omega]
        rw [this]
        exact ⟨rfl, by omega⟩
      · have hneg : (if pulses > steps then steps else pulses) < 0 := by
          by_cases hc : pulses > steps
          · rw [if_pos hc] at hcl ⊢
            omega
          · rw [if_neg hc] at hcl ⊢
            omega
        have h := generate_neg_clamped pulses steps rotation hneg
        exact ⟨h.2.1, h.1⟩
    · have hneg : (if pulses > steps then steps else pulses) < 0 := by
        rw [if_neg (by omega : ¬ pulses > steps)]
        exact hp
      have h := generate_neg_clamped pulses steps rotation hneg
      exact ⟨h.2.1, h.1⟩

/-- Witness for claim C7 (amended) at `pulses = 3, steps = -2` and at
`pulses = -5, steps = 16`. -/
theorem generate_invalid_params_silent_witness :
    ((-2 : Int) ≤ 0 ∧ generate 3 (-2) 0 = [])
    ∧ ((-5 : Int) < 0 ∧ (generate (-5) 16 0).sum = 0
        ∧ (generate (-5) 16 0).length ≤ 1) :=
  ⟨⟨by decide, (generate_invalid_params_silent 3 (-2) 0).1 (by decide)⟩,
   ⟨by decide, ((generate_invalid_params_silent (-5) 16 0).2 (by decide)).1,
      ((generate_invalid_params_silent (-5) 16 0).2 (by decide)).2⟩⟩


end EuclideanRhythm

theorem foldlMin_spec (key : Int → Nat) :
    ∀ (xs : List Int) (acc : Int), List.Pairwise (· < ·) (acc :: xs) →
      (xs.foldl (fun best y => if key y < key best then y else best) acc) ∈ acc :: xs
      ∧ (∀ y ∈ acc :: xs,
          key (xs.foldl (fun best y => if key y < key best then y else best) acc) ≤ key y)
      ∧ (∀ y ∈ acc :: xs,
          key y = key (xs.foldl (fun best y => if key y < key best then y else best) acc) →
          (xs.foldl (fun best y => if key y < key best then y else best) acc) ≤ y) := by
  intro xs
  induction xs with
  | nil =>
    intro acc _
    refine ⟨List.mem_cons_self _ _, ?_, ?_⟩
    · intro y hy
      rcases List.mem_singleton.mp hy with rfl
      exact le_refl _
    · intro y hy _
      rcases List.mem_singleton.mp hy with rfl
      exact le_refl _
  | cons z rest ih =>
    intro acc hpw
    have haz : acc < z := (List.pairwise_cons.mp hpw).1 z (List.mem_cons_self _ _)
    have haR : ∀ y ∈ rest, acc < y := fun y hy =>
      (List.pairwise_cons.mp hpw).1 y (List.mem_cons_of_mem _ hy)
    have hpw' : List.Pairwise (· < ·) (z :: rest) := (List.pairwise_cons.mp hpw).2
    have hzR : ∀ y ∈ rest, z < y := (List.pairwise_cons.mp hpw').1
    have hpwR : List.Pairwise (· < ·) rest := (List.pairwise_cons.mp hpw').2
    rw [List.foldl_cons]
    by_cases hcmp : key z < key acc
    · rw [if_pos hcmp]
      obtain ⟨hmem, hmin, htie⟩ := ih z hpw'
      refine ⟨?_, ?_, ?_⟩
      · rcases List.mem_cons.mp hmem with h | h
        · rw [h]
          exact List.mem_cons_of_mem _ (List.mem_cons_self _ _)
        · exact List.mem_cons_of_mem _ (List.mem_cons_of_mem _ h)
      · intro y hy
        rcases List.mem_cons.mp hy with rfl | hy
        · exact le_of_lt (lt_of_le_of_lt (hmin z (List.mem_cons_self _ _)) hcmp)
        · rcases List.mem_cons.mp hy with rfl | hy
          · exact hmin y (List.mem_cons_self _ _)
          · exact hmin y (List.mem_cons_of_mem _ hy)
      · intro y hy hk
        rcases List.mem_cons.mp hy with rfl | hy
        · exfalso
          have h1 := hmin z (List.mem_cons_self _ _)
          omega
        · rcases List.mem_cons.mp hy with rfl | hy
          · exact htie y (List.mem_cons_self _ _) hk
          · exact htie y (List.mem_cons_of_mem _ hy) hk
    · rw [if_neg hcmp]
      have hpw2 : List.Pairwise (· < ·) (acc :: rest) := by
        rw [List.pairwise_cons]
        exact ⟨haR, hpwR⟩
      obtain ⟨hmem, hmin, htie⟩ := ih acc hpw2
      refine ⟨?_, ?_, ?_⟩
      · rcases List.mem_cons.mp hmem with h | h
        · rw [h]
          exact List.mem_cons_self _ _
        · exact List.mem_cons_of_mem _ (List.mem_cons_of_mem _ h)
      · intro y hy
        rcases List.mem_cons.mp hy with rfl | hy
        · exact hmin y (List.mem_cons_self _ _)
        · rcases List.mem_cons.mp hy with rfl | hy
          · have := hmin acc (List.mem_cons_self _ _)
            omega
          · exact hmin y (List.mem_cons_of_mem _ hy)
      · intro y hy hk
        rcases List.mem_cons.mp hy with rfl | hy
        · exact htie y (List.mem_cons_self _ _) hk
        · rcases List.mem_cons.mp hy with rfl | hy
          · have h1 : key (rest.foldl (fun best y => if key y < key best then y else best) acc)
                ≤ key acc := hmin acc (List.mem_cons_self _ _)
            have h2 : key acc
                = key (rest.foldl (fun best y => if key y < key best then y else best) acc) := by
              omega
            have h3 := htie acc (List.mem_cons_self _ _) h2
            have h4 : rest.foldl (fun best y => if key y < key best then y else best) acc ≤ acc :=
              h3
            omega
          · exact htie y (List.mem_cons_of_mem _ hy) hk

theorem pyMinByKey_spec (key : Int → Nat) (l : List Int) (hne : l ≠ [])
    (hsort : List.Pairwise (· < ·) l) :
    pyMinByKey key l ∈ l
    ∧ (∀ y ∈ l, key (pyMinByKey key l) ≤ key y)
    ∧ (∀ y ∈ l, key y = key (pyMinByKey key l) → pyMinByKey key l ≤ y) := by
  match l with
  | [] => exact absurd rfl hne
  | x :: xs => exact foldlMin_spec key xs x hsort

namespace Scale

theorem buildScaleNotes_mem (rm : Int) (intervals : List Int) (lo hi : Int) :
    ∀ x ∈ buildScaleNotes rm intervals lo hi,
      ∃ i ∈ intervals, x % 12 = (rm + i) % 12 := by
  intro x hx
  rw [buildScaleNotes, List.mem_flatten] at hx
  obtain ⟨blk, hblk, hxblk⟩ := hx
  rw [List.mem_map] at hblk
  obtain ⟨oct, _, rfl⟩ := hblk
  rw [List.mem_filterMap] at hxblk
  obtain ⟨i, hi, hopt⟩ := hxblk
  by_cases hc : 0 ≤ rm + (oct - 3) * 12 + i ∧ rm + (oct - 3) * 12 + i ≤ 127
  · rw [if_pos hc, Option.some_inj] at hopt
    refine ⟨i, hi, ?_⟩
    rw [← hopt]
    conv_lhs => rw [show rm + (oct - 3) * 12 + i = rm + i + 12 * (oct - 3) by ring]
    omega
  · rw [if_neg hc] at hopt
    exact absurd hopt (by simp)

theorem buildScaleNotes_sorted (rm : Int) (intervals : List Int)
    (h1 : List.Pairwise (· < ·) intervals) (lo hi : Int)
    (h2 : ∀ i ∈ intervals, 0 ≤ i ∧ i ≤ 11) :
    List.Pairwise (· < ·) (buildScaleNotes rm intervals lo hi) := by
  rw [buildScaleNotes, List.pairwise_flatten]
  constructor
  · intro blk hblk
    rw [List.mem_map] at hblk
    obtain ⟨oct, _, rfl⟩ := hblk
    rw [List.pairwise_filterMap]
    refine h1.imp_of_mem ?_
    intro a b ha hb hab x hx y hy
    by_cases hca : 0 ≤ rm + (oct - 3) * 12 + a ∧ rm + (oct - 3) * 12 + a ≤ 127
    · rw [if_pos hca, Option.mem_def, Option.some_inj] at hx
      by_cases hcb : 0 ≤ rm + (oct - 3) * 12 + b ∧ rm + (oct - 3) * 12 + b ≤ 127
      · rw [if_pos hcb, Option.mem_def, Option.some_inj] at hy
        omega
      · rw [if_neg hcb] at hy
        exact absurd hy (by simp)
    · rw [if_neg hca] at hx
      exact absurd hx (by simp)
  · have hr : List.Pairwise (· < ·) (pyRange lo (hi + 1)) := by
      rw [pyRange, List.pairwise_map]
      refine (List.pairwise_lt_range _).imp ?_
      intro a b hab
      omega
    refine hr.map _ ?_
    intro o1 o2 h12 x hx y hy
    rw [List.mem_filterMap] at hx hy
    obtain ⟨i, hi, hxi⟩ := hx
    obtain ⟨j, hj, hyj⟩ := hy
    have hib := h2 i hi
    have hjb := h2 j hj
    by_cases hci : 0 ≤ rm + (o1 - 3) * 12 + i ∧ rm + (o1 - 3) * 12 + i ≤ 127
    · rw [if_pos hci, Option.some_inj] at hxi
      by_cases hcj : 0 ≤ rm + (o2 - 3) * 12 + j ∧ rm + (o2 - 3) * 12 + j ≤ 127
      · rw [if_pos hcj, Option.some_inj] at hyj
        omega
      · rw [if_neg hcj] at hyj
        exact absurd hyj (by simp)
    · rw [if_neg hci] at hxi
      exact absurd hxi (by simp)

theorem scale_tables_ok : ∀ s ∈ SCALES.map Prod.fst,
    List.Pairwise (· < ·) (scaleGet s)
    ∧ (∀ i ∈ scaleGet s, 0 ≤ i ∧ i ≤ 11) ∧ 0 ∈ scaleGet s := by
  decide

theorem root_table_ok : ∀ r ∈ ROOTS.map Prod.fst,
    48 ≤ rootGet r ∧ rootGet r ≤ 59 := by
  decide

theorem scale_notes_nonempty (root scale : String)
    (hr : root ∈ ROOTS.map Prod.fst) (hs : scale ∈ SCALES.map Prod.fst) :
    get_scale_notes root scale 0 10 ≠ [] := by
  obtain ⟨hroot1, hroot2⟩ := root_table_ok root hr
  obtain ⟨_, _, h0⟩ := scale_tables_ok scale hs
  have hx : rootGet root + (0 - 3) * 12 + 0 ∈ get_scale_notes root scale 0 10 := by
    rw [get_scale_notes, buildScaleNotes, List.mem_flatten]
    refine ⟨(scaleGet scale).filterMap (fun i =>
      if 0 ≤ rootGet root + ((0 : Int) - 3) * 12 + i
          ∧ rootGet root + ((0 : Int) - 3) * 12 + i ≤ 127
      then some (rootGet root + ((0 : Int) - 3) * 12 + i) else none), ?_, ?_⟩
    · rw [List.mem_map]
      refine ⟨0, by decide, rfl⟩
    · rw [List.mem_filterMap]
      refine ⟨0, h0, ?_⟩
      rw [if_pos (by omega)]
  intro hemp
  rw [hemp] at hx
  exact absurd hx (List.not_mem_nil _)

end Scale

/-- Claim C2: for every MIDI pitch in `[0,127]`, every root name in the
root table and every scale name in the scale table,
`quantize_to_scale(pitch, root, scale)` returns a pitch whose pitch class
(`mod 12`) is a member of the scale's interval set transposed by the root,
the returned pitch is nearest to the input among all scale notes, and when
two scale notes are equidistant from the input the lower one is returned. -/
theorem quantize_to_scale_spec (note : Int) (root scale : String)
    (hr : root ∈ Scale.ROOTS.map Prod.fst)
    (hs : scale ∈ Scale.SCALES.map Prod.fst)
    (h0 : 0 ≤ note) (h127 : note ≤ 127) :
    (Scale.quantize_to_scale note root scale) % 12
        ∈ (Scale.scaleGet scale).map (fun i => (Scale.rootGet root + i) % 12)
    ∧ (∀ y ∈ Scale.get_scale_notes root scale 0 10,
        ((Scale.quantize_to_scale note root scale) - note).natAbs
          ≤ (y - note).natAbs)
    ∧ (∀ y ∈ Scale.get_scale_notes root scale 0 10,
        (y - note).natAbs = ((Scale.quantize_to_scale note root scale) - note).natAbs →
        Scale.quantize_to_scale note root scale ≤ y) := by
  have hsorted : List.Pairwise (· < ·) (Scale.get_scale_notes root scale 0 10) := by
    obtain ⟨hp, hb, _⟩ := Scale.scale_tables_ok scale hs
    exact Scale.buildScaleNotes_sorted _ _ hp 0 10 hb
  have hne := Scale.scale_notes_nonempty root scale hr hs
  have hspec := pyMinByKey_spec (fun x => (x - note).natAbs) _ hne hsorted
  rw [Scale.quantize_to_scale]
  refine ⟨?_, hspec.2.1, hspec.2.2⟩
  obtain ⟨i, hi, hpc⟩ := Scale.buildScaleNotes_mem (Scale.rootGet root)
    (Scale.scaleGet scale) 0 10 _ hspec.1
  rw [List.mem_map]
  exact ⟨i, hi, hpc.symm⟩

set_option maxRecDepth 40000 in
/-- Witness for claim C2 at `note = 61`, `root = "C"`, `scale = "major"`:
the two nearest C-major notes are 60 and 62, both at distance 1, and the
lower one, 60, is returned. -/
theorem quantize_to_scale_spec_witness :
    ("C" ∈ Scale.ROOTS.map Prod.fst ∧ "major" ∈ Scale.SCALES.map Prod.fst
      ∧ (0 : Int) ≤ 61 ∧ (61 : Int) ≤ 127)
    ∧ Scale.quantize_to_scale 61 "C" "major" = 60
    ∧ (Scale.quantize_to_scale 61 "C" "major") % 12
        ∈ (Scale.scaleGet "major").map (fun i => (Scale.rootGet "C" + i) % 12) :=
  ⟨⟨by decide, by decide, by decide, by decide⟩, by decide,
    (quantize_to_scale_spec 61 "C" "major" (by decide) (by decide) (by decide)
      (by decide)).1⟩

set_option maxRecDepth 40000 in
/-- Claim C8: the `pop` chord progression in the key of A minor resolves
the index pattern `[0, 5, 3, 4]` against the diatonic minor chords of A
(`Am, B°, C, Dm, Em, F, G`) and returns exactly `[Am, F, Dm, Em]`. -/
theorem chord_progression_A_minor_pop :
    (KeySignature.make "A" "minor").get_chord_progression "pop"
      = [⟨"A", "minor", 1⟩, ⟨"F", "major", 6⟩, ⟨"D", "minor", 4⟩,
         ⟨"E", "minor", 5⟩] := by
  decide

namespace HumanizeEngine

theorem pyRandint_bounds (a b : Int) (s : PyRand) (h : a ≤ b) :
    a ≤ (pyRandint a b s).1 ∧ (pyRandint a b s).1 ≤ b := by
  have hlt : (s.picks.headD 0) % (b - a + 1).toNat < (b - a + 1).toNat :=
    Nat.mod_lt _ (by omega)
  constructor <;> simp only [pyRandint, PyRand.nextPick] <;> omega

theorem fdiv4_facts (J : Int) (hJ : 0 ≤ J) :
    -J ≤ (-J).fdiv 4 ∧ (-J).fdiv 4 ≤ 0 ∧ 0 ≤ J.fdiv 4 ∧ J.fdiv 4 ≤ J := by
  have h1 := Int.fdiv_add_fmod (-J) 4
  have h2 := Int.fmod_nonneg' (-J) (by omega : (0:Int) < 4)
  have h3 := Int.fmod_lt_of_pos (-J) (by omega : (0:Int) < 4)
  have h4 := Int.fdiv_add_fmod J 4
  have h5 := Int.fmod_nonneg' J (by omega : (0:Int) < 4)
  have h6 := Int.fmod_lt_of_pos J (by omega : (0:Int) < 4)
  omega

theorem clamp_diff_bounds (pos shift lo hi : Int) (hpos : 0 ≤ pos)
    (h1 : lo ≤ shift) (h2 : shift ≤ hi) (h3 : 0 ≤ hi) :
    lo ≤ max 0 (pos + shift) - pos ∧ max 0 (pos + shift) - pos ≤ hi := by
  omega

theorem humanizeTimingGo_spec (J : Int) (hJ : 0 ≤ J) (d : Note) :
    ∀ (notes : List Note) (s : PyRand) (i : Nat),
      0 ≤ (notes.getD i d).position →
      (-J ≤ ((humanizeTimingGo J notes s).1.getD i d).position
            - (notes.getD i d).position
        ∧ ((humanizeTimingGo J notes s).1.getD i d).position
            - (notes.getD i d).position ≤ J)
      ∧ ((notes.getD i d).position % 48 = 0 →
          (-J).fdiv 4 ≤ ((humanizeTimingGo J notes s).1.getD i d).position
              - (notes.getD i d).position
          ∧ ((humanizeTimingGo J notes s).1.getD i d).position
              - (notes.getD i d).position ≤ J.fdiv 4) := by
  intro notes
  induction notes with
  | nil =>
    intro s i _
    have hf := fdiv4_facts J hJ
    simp only [humanizeTimingGo, List.getD_nil]
    refine ⟨⟨by omega, by omega⟩, fun _ => ⟨by omega, by omega⟩⟩
  | cons n ns ih =>
    intro s i hpos
    have hf := fdiv4_facts J hJ
    match i with
    | 0 =>
      simp only [List.getD_cons_zero] at hpos ⊢
      simp only [humanizeTimingGo, List.getD_cons_zero]
      by_cases hsb : n.position % 48 = 0
      · rw [if_pos hsb]
        have hb := pyRandint_bounds ((-J).fdiv 4) (J.fdiv 4) s (by omega)
        have hc := clamp_diff_bounds n.position
          (pyRandint ((-J).fdiv 4) (J.fdiv 4) s).1 ((-J).fdiv 4) (J.fdiv 4)
          hpos hb.1 hb.2 (by omega)
        exact ⟨⟨by omega, by omega⟩, fun _ => ⟨by omega, by omega⟩⟩
      · rw [if_neg hsb]
        have hb := pyRandint_bounds (-J) J s (by omega)
        have hc := clamp_diff_bounds n.position
          (pyRandint (-J) J s).1 (-J) J hpos hb.1 hb.2 (by omega)
        exact ⟨⟨by omega, by omega⟩, fun hcon => absurd hcon hsb⟩
    | j + 1 =>
      simp only [List.getD_cons_succ] at hpos ⊢
      simp only [humanizeTimingGo, List.getD_cons_succ]
      by_cases hsb : n.position % 48 = 0
      · rw [if_pos hsb]
        exact ih (pyRandint ((-J).fdiv 4) (J.fdiv 4) s).2 j hpos
      · rw [if_neg hsb]
        exact ih (pyRandint (-J) J s).2 j hpos

theorem humanizeTimingGo_length (J : Int) :
    ∀ (notes : List Note) (s : PyRand),
      (humanizeTimingGo J notes s).1.length = notes.length := by
  intro notes
  induction notes with
  | nil => intro _; rfl
  | cons n ns ih =>
    intro s
    simp only [humanizeTimingGo, List.length_cons]
    by_cases hsb : n.position % 48 = 0
    · rw [if_pos hsb, ih]
    · rw [if_neg hsb, ih]

theorem humanizeVelocityGo_spec (v : Int) (d : Note) :
    ∀ (notes : List Note) (s : PyRand) (i : Nat), i < notes.length →
      1 ≤ ((humanizeVelocityGo v notes s).1.getD i d).velocity
      ∧ ((humanizeVelocityGo v notes s).1.getD i d).velocity ≤ 127 := by
  intro notes
  induction notes with
  | nil =>
    intro s i hi
    simp at hi
  | cons n ns ih =>
    intro s i hi
    match i with
    | 0 =>
      simp only [humanizeVelocityGo, List.getD_cons_zero]
      constructor <;> omega
    | j + 1 =>
      simp only [humanizeVelocityGo, List.getD_cons_succ]
      exact ih (pyRandint (-v) v s).2 j (by simp at hi; omega)

/-- Claim C6 (amended): for `humanize_timing` with jitter amount `a ≥ 0`
and jitter bound `J = int(48 * a)` on a note list with non-negative
positions, every output position differs from its input position by at
most `J` ticks, and for notes whose input position is an exact multiple of
48 ticks (the first slot of a bar — not every multiple of 12) the
difference lies in `[(-J) // 4, J // 4]`; and `humanize_velocity` always
produces velocities within `[1, 127]`. -/
theorem humanize_bounds (notes : List Note) (amount : ℚ) (s t : PyRand)
    (hamt : 0 ≤ amount) (hpos : ∀ n ∈ notes, 0 ≤ n.position) :
    (∀ i,
      (-(pyInt (48 * amount)) ≤
          (((humanize_timing notes amount s).1.getD i ⟨0, 0, 0, 0⟩).position
            - ((notes.getD i ⟨0, 0, 0, 0⟩).position))
        ∧ (((humanize_timing notes amount s).1.getD i ⟨0, 0, 0, 0⟩).position
            - ((notes.getD i ⟨0, 0, 0, 0⟩).position)) ≤ pyInt (48 * amount))
      ∧ ((notes.getD i ⟨0, 0, 0, 0⟩).position % 48 = 0 →
          (-(pyInt (48 * amount))).fdiv 4 ≤
              (((humanize_timing notes amount s).1.getD i ⟨0, 0, 0, 0⟩).position
                - ((notes.getD i ⟨0, 0, 0, 0⟩).position))
          ∧ (((humanize_timing notes amount s).1.getD i ⟨0, 0, 0, 0⟩).position
                - ((notes.getD i ⟨0, 0, 0, 0⟩).position))
              ≤ (pyInt (48 * amount)).fdiv 4))
    ∧ (∀ i, i < notes.length →
        1 ≤ ((humanize_velocity notes amount t).1.getD i ⟨0, 0, 0, 0⟩).velocity
        ∧ ((humanize_velocity notes amount t).1.getD i ⟨0, 0, 0, 0⟩).velocity
            ≤ 127) := by
  have hJ : 0 ≤ pyInt (48 * amount) := by
    rw [pyInt]
    have hnum : 0 ≤ (48 * amount).num := Rat.num_nonneg.mpr (by positivity)
    have hden : (0 : Int) < (48 * amount).den := by
      exact_mod_cast (48 * amount).pos
    exact Int.tdiv_nonneg hnum (by omega)
  constructor
  · intro i
    by_cases hi : i < notes.length
    · have hp : 0 ≤ (notes.getD i ⟨0, 0, 0, 0⟩).position := by
        have hmem : notes.getD i ⟨0, 0, 0, 0⟩ ∈ notes := by
          rw [List.getD_eq_getElem _ _ hi]
          exact List.getElem_mem _
        exact hpos _ hmem
      exact humanizeTimingGo_spec (pyInt (48 * amount)) hJ ⟨0, 0, 0, 0⟩ notes s i hp
    · have hlen := humanizeTimingGo_length (pyInt (48 * amount)) notes s
      have h1 : (humanize_timing notes amount s).1.getD i ⟨0, 0, 0, 0⟩
          = ⟨0, 0, 0, 0⟩ := by
        apply List.getD_eq_default
        rw [humanize_timing, hlen]
        omega
      have h2 : notes.getD i ⟨0, 0, 0, 0⟩ = ⟨0, 0, 0, 0⟩ := by
        apply List.getD_eq_default
        omega
      rw [h1, h2]
      have hf := fdiv4_facts (pyInt (48 * amount)) hJ
      refine ⟨⟨by omega, by omega⟩, fun _ => ⟨by omega, by omega⟩⟩
  · intro i hi
    exact humanizeVelocityGo_spec (pyInt (127 * amount)) ⟨0, 0, 0, 0⟩ notes t i hi

end HumanizeEngine

namespace HumanizeEngine

/-- Witness for claim C6 (amended) on a one-note list at position 12 with
`amount = 1/10`. -/
theorem humanize_bounds_witness :
    ((0 : ℚ) ≤ 1/10 ∧ ∀ n ∈ [(⟨12, 60, 3, 100⟩ : Note)], 0 ≤ n.position)
    ∧ (-(pyInt (48 * (1/10 : ℚ))) ≤
        ((humanize_timing [⟨12, 60, 3, 100⟩] (1/10) ⟨[], []⟩).1.getD 0
            ⟨0, 0, 0, 0⟩).position
          - (([(⟨12, 60, 3, 100⟩ : Note)].getD 0 ⟨0, 0, 0, 0⟩).position)
        ∧ ((humanize_timing [⟨12, 60, 3, 100⟩] (1/10) ⟨[], []⟩).1.getD 0
            ⟨0, 0, 0, 0⟩).position
          - (([(⟨12, 60, 3, 100⟩ : Note)].getD 0 ⟨0, 0, 0, 0⟩).position)
          ≤ pyInt (48 * (1/10 : ℚ)))
    ∧ (1 ≤ ((humanize_velocity [⟨12, 60, 3, 100⟩] (1/10) ⟨[], []⟩).1.getD 0
            ⟨0, 0, 0, 0⟩).velocity
        ∧ ((humanize_velocity [⟨12, 60, 3, 100⟩] (1/10) ⟨[], []⟩).1.getD 0
            ⟨0, 0, 0, 0⟩).velocity ≤ 127) :=
  ⟨⟨by norm_num, by decide⟩,
    ((humanize_bounds [⟨12, 60, 3, 100⟩] (1/10) ⟨[], []⟩ ⟨[], []⟩
        (by norm_num) (by decide)).1 0).1,
    (humanize_bounds [⟨12, 60, 3, 100⟩] (1/10) ⟨[], []⟩ ⟨[], []⟩
        (by norm_num) (by decide)).2 0 (by decide)⟩

/-- Claim C6 (counterexample): a note at position 12 — an exact multiple
of 12 ticks but not of 48 — receives the full jitter, not the quarter
bound: with `amount = 1/10` the bound is `J = 4`, and a run shifting by
`+4` moves the note from 12 to 16, a difference of `4 > J/4 = 1`. -/
theorem humanize_timing_mod12_counterexample :
    (12 : Int) % 12 = 0
    ∧ pyInt (48 * (1/10 : ℚ)) = 4
    ∧ ((humanize_timing [⟨12, 60, 3, 100⟩] (1/10) ⟨[], [8]⟩).1.getD 0
        ⟨0, 0, 0, 0⟩).position - 12 = 4
    ∧ ¬ ((4 : Int) ≤ 4 / 4) := by
  with_unfolding_all decide

theorem humanizeTimingGo_frame (J : Int) (d : Note) :
    ∀ (notes : List Note) (s : PyRand) (i : Nat),
      ((humanizeTimingGo J notes s).1.getD i d).pitch = (notes.getD i d).pitch
      ∧ ((humanizeTimingGo J notes s).1.getD i d).length
          = (notes.getD i d).length
      ∧ ((humanizeTimingGo J notes s).1.getD i d).velocity
          = (notes.getD i d).velocity := by
  intro notes
  induction notes with
  | nil =>
    intro s i
    exact ⟨rfl, rfl, rfl⟩
  | cons n ns ih =>
    intro s i
    match i with
    | 0 =>
      simp [humanizeTimingGo]
    | j + 1 =>
      simp only [humanizeTimingGo, List.getD_cons_succ]
      exact ih _ j

/-- Claim C10: `humanize_timing` returns a list with the same number of
notes in the same order, in which every note's pitch, length and velocity
equal those of the corresponding input note; only the position changes. -/
theorem humanize_timing_frame (notes : List Note) (amount : ℚ) (s : PyRand) :
    (humanize_timing notes amount s).1.length = notes.length
    ∧ ∀ i : Nat,
        ((humanize_timing notes amount s).1.getD i ⟨0, 0, 0, 0⟩).pitch
            = (notes.getD i ⟨0, 0, 0, 0⟩).pitch
        ∧ ((humanize_timing notes amount s).1.getD i ⟨0, 0, 0, 0⟩).length
            = (notes.getD i ⟨0, 0, 0, 0⟩).length
        ∧ ((humanize_timing notes amount s).1.getD i ⟨0, 0, 0, 0⟩).velocity
            = (notes.getD i ⟨0, 0, 0, 0⟩).velocity :=
  ⟨humanizeTimingGo_length (pyInt (48 * amount)) notes s,
    fun i => humanizeTimingGo_frame (pyInt (48 * amount)) ⟨0, 0, 0, 0⟩ notes s i⟩

end HumanizeEngine

theorem insertDesc_length (key : α → ℚ) (x : α) (l : List α) :
    (insertDesc key x l).length = l.length + 1 := by
  induction l with
  | nil => rfl
  | cons y ys ih =>
    rw [insertDesc]
    by_cases h : key y < key x
    · rw [if_pos h]
      simp
    · rw [if_neg h]
      simp [ih]

theorem sortByDesc_length_aux (key : α → ℚ) :
    ∀ (l acc : List α),
      (l.foldl (fun a x => insertDesc key x a) acc).length
        = acc.length + l.length := by
  intro l
  induction l with
  | nil => intro acc; simp
  | cons x xs ih =>
    intro acc
    rw [List.foldl_cons, ih, insertDesc_length]
    simp only [List.length_cons]
    omega

theorem sortByDesc_length (key : α → ℚ) (l : List α) :
    (sortByDesc key l).length = l.length := by
  rw [sortByDesc, sortByDesc_length_aux]
  simp

namespace GeneticRhythm

theorem refill_mem (ps : Nat) (sv : List PatternDNA) :
    ∀ (fuel : Nat) (acc : List PatternDNA) (s : PyRand) (x : PatternDNA),
      x ∈ acc → x ∈ (refill ps sv fuel acc s).1 := by
  intro fuel
  induction fuel with
  | zero => intro acc s x hx; exact hx
  | succ f ih =>
    intro acc s x hx
    rw [refill]
    by_cases hc : acc.length < ps
    · rw [if_pos hc]
      exact ih _ _ x (List.mem_append_left _ hx)
    · rw [if_neg hc]
      exact hx

/-- Claim C5 (amended): `evolve()` ranks the population by fitness
descending (stable sort), keeps the top half as survivors, refills the
population by crossover of two randomly chosen survivors followed by
mutation — but it returns the top entry of the PRE-evolution ranking
(`fitness_scores[0][0]`), not the best of the new generation.  That entry
is retained in the new population (it is the first survivor), but freshly
created children are never re-evaluated, so the returned individual need
not have maximal fitness in the post-evolution population. -/
theorem evolve_spec (g : GeneticRhythm) (s : PyRand)
    (hne : g.population ≠ []) (hhalf : 1 ≤ g.population_size / 2) :
    (evolve g s).1
      = ((sortByDesc (fun p => p.2)
          (g.population.map (fun d => (d, fitness d)))).getD 0 default).1
    ∧ (evolve g s).1 ∈ (evolve g s).2.1.population := by
  have hif : (if g.population = [] then initialize_population g 16 s
      else (g, s)) = (g, s) := if_neg hne
  unfold evolve
  rw [hif]
  refine ⟨rfl, ?_⟩
  show ((sortByDesc (fun p => p.2)
      (g.population.map (fun d => (d, fitness d)))).getD 0 default).1
    ∈ (refill g.population_size
        ((sortByDesc (fun p => p.2)
          (g.population.map (fun d => (d, fitness d)))).take
            (g.population_size / 2) |>.map Prod.fst)
        g.population_size
        ((sortByDesc (fun p => p.2)
          (g.population.map (fun d => (d, fitness d)))).take
            (g.population_size / 2) |>.map Prod.fst) s).1
  have hlen : (sortByDesc (fun p => p.2)
      (g.population.map (fun d => (d, fitness d)))).length
      = g.population.length := by
    rw [sortByDesc_length, List.length_map]
  have hne' : (sortByDesc (fun p => p.2)
      (g.population.map (fun d => (d, fitness d)))) ≠ [] := by
    intro hempty
    rw [hempty] at hlen
    exact hne (List.length_eq_zero.mp hlen.symm)
  obtain ⟨q, tl, hq⟩ : ∃ q tl, sortByDesc (fun p => p.2)
      (g.population.map (fun d => (d, fitness d))) = q :: tl := by
    match hs : sortByDesc (fun p => p.2)
        (g.population.map (fun d => (d, fitness d))) with
    | [] => exact absurd hs hne'
    | q :: tl => exact ⟨q, tl, hs⟩
  rw [hq]
  obtain ⟨k, hk⟩ : ∃ k, g.population_size / 2 = k + 1 :=
    ⟨g.population_size / 2 - 1, by omega⟩
  rw [hk]
  apply refill_mem
  rw [List.take_succ_cons, List.map_cons]
  exact List.mem_cons_self _ _

set_option maxRecDepth 200000 in
/-- Claim C5 (counterexample): with the two-individual population
`[[1,0,1,0], [0,0,0,0]]` (fitness `19/10` and `0`) and an RNG trace that
crosses the sole survivor with itself and applies one adjacent-shift
mutation, the new generation contains the child `[0,1,1,0]` of fitness
`17/5 > 19/10`, yet `evolve` returns the old top individual `[1,0,1,0]` —
so the returned individual does not have maximal fitness among the
post-evolution population. -/
theorem evolve_counterexample :
    fitness (((evolve ⟨2, [⟨[1, 0, 1, 0], [1, 1, 1, 1], [0, 0, 0, 0], 3/10, 2⟩,
          ⟨[0, 0, 0, 0], [1, 1, 1, 1], [0, 0, 0, 0], 3/10, 2⟩], 0⟩
        ⟨[9/10, 0, 9/10, 9/10], [0, 0, 0, 0, 1]⟩).2.1.population).getD 1 default)
      > fitness ((evolve ⟨2, [⟨[1, 0, 1, 0], [1, 1, 1, 1], [0, 0, 0, 0], 3/10, 2⟩,
          ⟨[0, 0, 0, 0], [1, 1, 1, 1], [0, 0, 0, 0], 3/10, 2⟩], 0⟩
        ⟨[9/10, 0, 9/10, 9/10], [0, 0, 0, 0, 1]⟩).1) := by
  with_unfolding_all decide

set_option maxRecDepth 200000 in
/-- Witness for claim C5 (amended) on the same concrete state. -/
theorem evolve_spec_witness :
    (([⟨[1, 0, 1, 0], [1, 1, 1, 1], [0, 0, 0, 0], 3/10, 2⟩,
        ⟨[0, 0, 0, 0], [1, 1, 1, 1], [0, 0, 0, 0], 3/10, 2⟩] : List PatternDNA) ≠ []
      ∧ 1 ≤ 2 / 2)
    ∧ (evolve ⟨2, [⟨[1, 0, 1, 0], [1, 1, 1, 1], [0, 0, 0, 0], 3/10, 2⟩,
          ⟨[0, 0, 0, 0], [1, 1, 1, 1], [0, 0, 0, 0], 3/10, 2⟩], 0⟩
        ⟨[9/10, 0, 9/10, 9/10], [0, 0, 0, 0, 1]⟩).1
      = ((sortByDesc (fun p => p.2)
          (([⟨[1, 0, 1, 0], [1, 1, 1, 1], [0, 0, 0, 0], 3/10, 2⟩,
             ⟨[0, 0, 0, 0], [1, 1, 1, 1], [0, 0, 0, 0], 3/10, 2⟩] :
            List PatternDNA).map (fun d => (d, fitness d)))).getD 0 default).1
    ∧ (evolve ⟨2, [⟨[1, 0, 1, 0], [1, 1, 1, 1], [0, 0, 0, 0], 3/10, 2⟩,
          ⟨[0, 0, 0, 0], [1, 1, 1, 1], [0, 0, 0, 0], 3/10, 2⟩], 0⟩
        ⟨[9/10, 0, 9/10, 9/10], [0, 0, 0, 0, 1]⟩).1
      ∈ (evolve ⟨2, [⟨[1, 0, 1, 0], [1, 1, 1, 1], [0, 0, 0, 0], 3/10, 2⟩,
          ⟨[0, 0, 0, 0], [1, 1, 1, 1], [0, 0, 0, 0], 3/10, 2⟩], 0⟩
        ⟨[9/10, 0, 9/10, 9/10], [0, 0, 0, 0, 1]⟩).2.1.population :=
  ⟨⟨by with_unfolding_all decide, by decide⟩,
    (evolve_spec _ _ (by with_unfolding_all decide) (by decide)).1,
    (evolve_spec _ _ (by with_unfolding_all decide) (by decide)).2⟩

end GeneticRhythm

namespace CreativePatternEngine

theorem uniqueLoop_spec (md5 : List Nat → String) (cache : List String) :
    ∀ (k a : Nat) (p : List Nat) (h : String) (s : PyRand),
      10 - a = k → a ≤ 10 → h = md5 p →
      (uniqueLoop md5 cache a p h s).attempts ≤ 10
      ∧ (uniqueLoop md5 cache a p h s).hash
          = md5 (uniqueLoop md5 cache a p h s).pattern
      ∧ ((uniqueLoop md5 cache a p h s).hash ∉ cache
          ∨ (uniqueLoop md5 cache a p h s).attempts = 10) := by
  intro k
  induction k using Nat.strong_induction_on with
  | _ k ih =>
    intro a p h s hk ha hh
    rw [uniqueLoop]
    by_cases hc : h ∈ cache ∧ a < 10
    · rw [if_pos hc]
      exact ih (10 - (a + 1)) (by omega) (a + 1) _ _ _ rfl (by omega) rfl
    · rw [if_neg hc]
      push_neg at hc
      refine ⟨ha, hh, ?_⟩
      by_cases hmem : h ∈ cache
      · right
        have h10 := hc hmem
        show a = 10
        omega
      · left
        exact hmem

/-- Claim C4: for every requested length, every cache state, every
algorithm-generator behaviour and every RNG state,
`generate_unique_pattern` performs at most 10 collision-retry
transformations and always terminates returning a pattern; the loop stops
either because the fingerprint is fresh or because the 10th attempt was
reached, in which case the still-colliding pattern is accepted, returned
and registered in the cache rather than retried further. -/
theorem generate_unique_pattern_bounded_retry
    (genPattern : PatternAlgorithm → Nat → PyRand → List Nat × PyRand)
    (md5 : List Nat → String) (eng : CPEngine) (length : Nat)
    (force_different : Bool) (s : PyRand) :
    let gen := genPattern (chooseAlgorithm eng force_different s).1 length
      (chooseAlgorithm eng force_different s).2
    let res := uniqueLoop md5 eng.pattern_cache 0 gen.1 (md5 gen.1) gen.2
    res.attempts ≤ 10
    ∧ (md5 res.pattern ∉ eng.pattern_cache ∨ res.attempts = 10)
    ∧ (generate_unique_pattern genPattern md5 eng length force_different s).1.pattern
        = res.pattern
    ∧ (generate_unique_pattern genPattern md5 eng length
        force_different s).2.1.pattern_cache
        = List.insert res.hash eng.pattern_cache := by
  intro gen res
  have hspec := uniqueLoop_spec md5 eng.pattern_cache (10 - 0) 0 gen.1
    (md5 gen.1) gen.2 rfl (by omega) rfl
  refine ⟨hspec.1, ?_, rfl, rfl⟩
  rcases hspec.2.2 with hfresh | hten
  · left
    rw [← hspec.2.1]
    exact hfresh
  · right
    exact hten

end CreativePatternEngine

namespace MusicalIntelligence

set_option maxRecDepth 200000 in
/-- C9, counterexample.  `generate_track` has no seed parameter: its
randomness comes from the module-global `random` stream.  Two calls with
the identical request (`techno`, no mood, 1 bar, tempo 130, key `A`) but
different global-stream states return different hi-hat note lists (the
first sounded hat's velocity jitter reads the stream), so the output is
not a function of the request alone and, absent any seed argument,
identical-request reproducibility fails. -/
theorem generate_track_global_state_counterexample :
    (generate_track "techno" none 1 (some 130) (some "A")
      ⟨[], []⟩).1.tracks.drums.hat
    ≠ (generate_track "techno" none 1 (some 130) (some "A")
      ⟨[], [0, 7]⟩).1.tracks.drums.hat := by
  with_unfolding_all decide

set_option maxRecDepth 200000 in
/-- C9, amended.  A run of `generate_track` is a deterministic function
of the request together with the global random-stream state at call time,
but each run advances that shared stream: this request consumes 44 draws
(scale choice, hat jitters, drum humanization, bass pattern and
humanization), so a second, back-to-back run with the identical request
starts 44 draws later and here returns a different hi-hat note list.
Reproducibility therefore requires restoring the global stream state, not
merely repeating the request. -/
theorem generate_track_consecutive_runs_differ :
    (generate_track "techno" none 1 (some 130) (some "A")
      (generate_track "techno" none 1 (some 130) (some "A")
        ⟨[], List.replicate 45 0 ++ [7]⟩).2).1.tracks.drums.hat
    ≠ (generate_track "techno" none 1 (some 130) (some "A")
      ⟨[], List.replicate 45 0 ++ [7]⟩).1.tracks.drums.hat := by
  with_unfolding_all decide

end MusicalIntelligence
